import Mathlib

/-!
Verification of the aapt2 resource-table core and manifest fixer.

The `Aapt` namespace embeds the data model of `tools/aapt2/ResourceTable.h`
(packages → types → entries → configured value slots) together with the
table operations.  The implementation files `ResourceTable.cpp` and
`StringPool.cpp` are not among the sources, only their declarations in
`ResourceTable.h`; those operations are therefore modelled from the
specification text, as marked on each definition.

The `Xml` namespace embeds the manifest-fixing pass from
`tools/aapt2/link/ManifestFixer.cpp`.
-/

set_option autoImplicit false


namespace Aapt

variable {α : Type} {κ : Type} [LinearOrder κ]

/-! ### Generic list machinery

`insertSortedBy key x l` inserts `x` in front of the first element whose key
is greater than `key x`; it models insertion at a `std::lower_bound`
position in a vector kept sorted by `key`. -/
def insertSortedBy (key : α → κ) (x : α) : List α → List α
  | [] => [x]
  | y :: ys => if key x < key y then x :: y :: ys else y :: insertSortedBy key x ys

end Aapt

namespace Aapt

/-! ### Interning pool

Modelled from the spec: `StringPool.cpp` is not among the sources
(`ResourceTable.h` only declares the `string_pool` member).  Spec §4.1:
"`Intern(text) -> Handle`.  Two calls with equal text content return handles
comparing equal and share underlying storage; handles remain valid for the
pool's full lifetime.  No eviction.  Side effect: inserts on first occurrence
only."  A handle is the index of the stored string; sharing of storage is
expressed by both handles denoting the same stored entry. -/
def poolFindIdx (s : String) : List String → Option Nat
  | [] => none
  | t :: ts => if t = s then some 0 else (poolFindIdx s ts).map (· + 1)

structure StringPool where
  strings : List String := []
deriving DecidableEq, Repr

/-- Modelled from the spec: interning returns the handle of the existing
entry when the text is already present, and appends the text otherwise. -/
def StringPool.MakeRef (p : StringPool) (s : String) : StringPool × Nat :=
  match poolFindIdx s p.strings with
  | some i => (p, i)
  | none => (⟨p.strings ++ [s]⟩, p.strings.length)

end Aapt

namespace Xml

/-! ### XML model and the manifest fixer

Embedded from `tools/aapt2/link/ManifestFixer.cpp`.  The XML document type
(`xml/XmlDom.h`) is not among the sources; an element is modelled as its
namespace URI, tag name, attribute list and child elements, which is the
part of the document the embedded code reads and writes.  Text nodes and
namespace wrapper nodes play no role in the embedded functions. -/
structure Attribute where
  namespace_uri : String
  name : String
  value : String
deriving DecidableEq, Repr

inductive Element where
  | mk (namespace_uri : String) (name : String)
      (attributes : List Attribute) (children : List Element)

def Element.namespace_uri : Element → String
  | .mk ns _ _ _ => ns

def Element.name : Element → String
  | .mk _ n _ _ => n

def Element.attributes : Element → List Attribute
  | .mk _ _ as _ => as

def Element.children : Element → List Element
  | .mk _ _ _ cs => cs

def Element.setAttributes : Element → List Attribute → Element
  | .mk ns n _ cs, as => .mk ns n as cs

def attrMatches (ns nm : String) (a : Attribute) : Bool :=
  a.namespace_uri = ns && a.name = nm

def childMatches (ns nm : String) (c : Element) : Bool :=
  c.namespace_uri = ns && c.name = nm

/-- `xml::Element::FindAttribute`: first attribute with the given namespace
URI and name. -/
def Element.FindAttribute (el : Element) (ns nm : String) : Option Attribute :=
  el.attributes.find? (attrMatches ns nm)

/-- `xml::Element::FindChild`: first child element with the given namespace
URI and name. -/
def Element.FindChild (el : Element) (ns nm : String) : Option Element :=
  el.children.find? (childMatches ns nm)

/-- `xml::Element::AddChild`: appends a child element. -/
def Element.AddChild : Element → Element → Element
  | .mk ns n as cs, child => .mk ns n as (cs ++ [child])

/-- The `http://schemas.android.com/apk/res/android` schema URI
(`xml::kSchemaAndroid`). -/
def kSchemaAndroid : String := "http://schemas.android.com/apk/res/android"

structure ManifestFixerOptions where
  min_sdk_version_default : Option String := none
  target_sdk_version_default : Option String := none
  version_name_default : Option String := none
  version_code_default : Option String := none
  rename_manifest_package : Option String := none
  rename_instrumentation_target_package : Option String := none
deriving DecidableEq, Repr

structure XmlResource where
  root : Option Element

structure ConsumeResult where
  ok : Bool
  doc : XmlResource
  errors : List String

/-- `xml::FindRootElement` (`xml/XmlDom.cpp` is not among the sources): it
walks past namespace wrapper nodes to the document's root element, or
returns null; modelled as the document's root element option. -/
def FindRootElement (doc : XmlResource) : Option Element := doc.root

/-- First half of the `uses-sdk` action installed by
`ManifestFixer::BuildRules` (ManifestFixer.cpp lines 172–178): appends an
`android:minSdkVersion` attribute carrying the configured default when the
option is set and the attribute is absent. -/
def addMinSdk (options : ManifestFixerOptions) (el : Element) : Element :=
  match options.min_sdk_version_default,
      el.FindAttribute kSchemaAndroid "minSdkVersion" with
  | some v, none =>
      el.setAttributes
        (el.attributes ++ [(⟨kSchemaAndroid, "minSdkVersion", v⟩ : Attribute)])
  | _, _ => el

/-- Second half of the `uses-sdk` action (ManifestFixer.cpp lines 180–186):
same for `android:targetSdkVersion`. -/
def addTargetSdk (options : ManifestFixerOptions) (el : Element) : Element :=
  match options.target_sdk_version_default,
      el.FindAttribute kSchemaAndroid "targetSdkVersion" with
  | some v, none =>
      el.setAttributes
        (el.attributes ++ [(⟨kSchemaAndroid, "targetSdkVersion", v⟩ : Attribute)])
  | _, _ => el

/-- The `uses-sdk` action of `ManifestFixer::BuildRules` (ManifestFixer.cpp
lines 171–188); the action always reports success. -/
def usesSdkAction (options : ManifestFixerOptions) (el : Element) : Element :=
  addTargetSdk options (addMinSdk options el)

/-- The `<uses-sdk>` auto-insertion step of `ManifestFixer::Consume`
(ManifestFixer.cpp lines 309–316): when a minimum or target SDK default is
configured and the manifest has no `uses-sdk` child, an empty `uses-sdk`
element is appended. -/
def insertUsesSdk (options : ManifestFixerOptions) (root : Element) : Element :=
  if (options.min_sdk_version_default.isSome || options.target_sdk_version_default.isSome)
      && (root.FindChild "" "uses-sdk").isNone then
    root.AddChild (.mk "" "uses-sdk" [] [])
  else
    root

/-- `ManifestFixer::Consume` (ManifestFixer.cpp lines 301–337).  The phases
after the `uses-sdk` insertion — rule construction and execution through
`xml::XmlActionExecutor` (not among the sources) and the optional package
rename — are abstracted as the `rest` parameter, which returns the
transformed root on success and `none` on failure.  The root-tag check and
the `uses-sdk` insertion are embedded from the source. -/
def ManifestFixer.Consume (rest : ManifestFixerOptions → Element → Option Element)
    (options : ManifestFixerOptions) (doc : XmlResource) : ConsumeResult :=
  match FindRootElement doc with
  | none => ⟨false, doc, ["root tag must be <manifest>"]⟩
  | some root =>
    if root.namespace_uri = "" ∧ root.name = "manifest" then
      match rest options (insertUsesSdk options root) with
      | some root2 => ⟨true, ⟨some root2⟩, []⟩
      | none => ⟨false, ⟨some (insertUsesSdk options root)⟩, []⟩
    else
      ⟨false, doc, ["root tag must be <manifest>"]⟩

end Xml

namespace Aapt

/-! ### Resource table data model

From the declarations in `tools/aapt2/ResourceTable.h`.  `ConfigDescription`
(the device-configuration qualifier key) is an opaque, totally ordered,
equality-comparable type per spec §6, modelled as `String`; `ResourceType`
(the logical resource kind enum from `Resource.h`, not among the sources) is
modelled as an opaque ordered tag `Nat`.  A `Value` (from
`ResourceValues.h`, not among the sources) is modelled by what the table
core observes of it: a kind tag, a weak/placeholder flag, its declaring
source location, and an opaque payload. -/
abbrev ConfigDescription := String

abbrev ResourceType := Nat

inductive SymbolState
  | kUndefined
  | kPrivate
  | kPublic
deriving DecidableEq, Repr

structure Symbol where
  state : SymbolState := .kUndefined
  source : Nat := 0
  comment : String := ""
deriving DecidableEq, Repr

structure Value where
  kind : Nat
  weak : Bool
  source : Nat
  payload : String
deriving DecidableEq, Repr

inductive CollisionResult
  | kKeepOriginal
  | kConflict
  | kTakeNew
deriving DecidableEq, Repr

structure ResourceConfigValue where
  config : ConfigDescription
  product : String
  value : Option Value
deriving DecidableEq, Repr

structure ResourceEntry where
  name : String
  id : Option Nat := none
  symbol_status : Symbol := {}
  values : List ResourceConfigValue := []
deriving DecidableEq, Repr

structure ResourceTableType where
  type : ResourceType
  id : Option Nat := none
  symbol_status : Symbol := {}
  entries : List ResourceEntry := []
deriving DecidableEq, Repr

structure ResourceTablePackage where
  id : Option Nat := none
  name : String := ""
  types : List ResourceTableType := []
deriving DecidableEq, Repr

structure ResourceTable where
  string_pool : StringPool := {}
  packages : List ResourceTablePackage := []
deriving DecidableEq, Repr

structure ResourceName where
  package : String
  type : ResourceType
  entry : String
deriving DecidableEq, Repr

structure ResourceId where
  package_id : Nat
  type_id : Nat
  entry_id : Nat
deriving DecidableEq, Repr

/-- Structured diagnostics: what the spec requires a diagnostic to report
(the offending name; the disagreeing ids; the two source locations of a
value collision). -/
inductive DiagMessage
  | invalidName (entry : String)
  | idConflict (existing incoming : Nat)
  | valueConflict (existingSource incomingSource : Nat)
deriving DecidableEq, Repr

structure AddResult where
  table : ResourceTable
  ok : Bool
  diags : List DiagMessage
deriving DecidableEq, Repr

def slotKeyMatches (config : ConfigDescription) (product : String)
    (s : ResourceConfigValue) : Bool :=
  s.config = config && s.product = product

def entryNameMatches (n : String) (e : ResourceEntry) : Bool :=
  e.name = n

def typeTagMatches (τ : ResourceType) (t : ResourceTableType) : Bool :=
  t.type = τ

def pkgNameMatches (n : String) (p : ResourceTablePackage) : Bool :=
  p.name = n

def freshEntry (n : String) : ResourceEntry := { name := n }

def freshType (τ : ResourceType) : ResourceTableType := { type := τ }

def freshPackage (n : String) : ResourceTablePackage := { name := n }

/-! ### Lookup and creation

The `Find*` functions are declared in `ResourceTable.h`; their bodies
(`ResourceTable.cpp`) are not among the sources, so they are modelled from
the spec: exact-key lookup returning nothing when absent (§4.2–§4.3), and
idempotent find-or-create keeping "a lookup-friendly order (by name/type)"
(§4.3), with packages "conceptually kept sorted by name" (§3).  Newly
created children start with Symbol = Undefined and no numeric id (§4.3);
a newly created value slot is initially value-less (§4.2). -/
def ResourceEntry.FindValue (e : ResourceEntry) (config : ConfigDescription)
    (product : String) : Option ResourceConfigValue :=
  e.values.find? (slotKeyMatches config product)

/-- Modelled from the spec (§4.2): returns the existing slot for the key,
or appends a new value-less slot. -/
def ResourceEntry.FindOrCreateValue (e : ResourceEntry) (config : ConfigDescription)
    (product : String) : ResourceEntry × ResourceConfigValue :=
  match e.FindValue config product with
  | some v => (e, v)
  | none =>
    ({ e with values := e.values ++ [⟨config, product, none⟩] },
     ⟨config, product, none⟩)

def ResourceTableType.FindEntry (t : ResourceTableType) (n : String) :
    Option ResourceEntry :=
  t.entries.find? (entryNameMatches n)

/-- Modelled from the spec (§4.3): find-or-create keyed by exact name,
inserted at its sorted position. -/
def ResourceTableType.FindOrCreateEntry (t : ResourceTableType) (n : String) :
    ResourceTableType × ResourceEntry :=
  match t.FindEntry n with
  | some e => (t, e)
  | none =>
    ({ t with entries := insertSortedBy ResourceEntry.name (freshEntry n) t.entries },
     freshEntry n)

def ResourceTablePackage.FindType (p : ResourceTablePackage) (τ : ResourceType) :
    Option ResourceTableType :=
  p.types.find? (typeTagMatches τ)

/-- Modelled from the spec (§4.3): find-or-create keyed by exact type tag,
inserted at its sorted position. -/
def ResourceTablePackage.FindOrCreateType (p : ResourceTablePackage) (τ : ResourceType) :
    ResourceTablePackage × ResourceTableType :=
  match p.FindType τ with
  | some t => (p, t)
  | none =>
    ({ p with types := insertSortedBy ResourceTableType.type (freshType τ) p.types },
     freshType τ)

def ResourceTable.FindPackage (t : ResourceTable) (n : String) :
    Option ResourceTablePackage :=
  t.packages.find? (pkgNameMatches n)

/-- Modelled from the spec (§3, §4.4): find-or-create keyed by exact package
name (the empty string is a valid, distinct package name), inserted at its
sorted position. -/
def ResourceTable.FindOrCreatePackage (t : ResourceTable) (n : String) :
    ResourceTable × ResourceTablePackage :=
  match t.FindPackage n with
  | some p => (t, p)
  | none =>
    ({ t with packages := insertSortedBy ResourceTablePackage.name (freshPackage n) t.packages },
     freshPackage n)

/-- Replace the packages whose name matches `N` by `f` applied to them. -/
def replacePackageBy (N : String) (f : ResourceTablePackage → ResourceTablePackage)
    (t : ResourceTable) : ResourceTable :=
  { t with packages := t.packages.map fun q => if pkgNameMatches N q then f q else q }

def replaceTypeBy (τ : ResourceType) (f : ResourceTableType → ResourceTableType)
    (p : ResourceTablePackage) : ResourceTablePackage :=
  { p with types := p.types.map fun q => if typeTagMatches τ q then f q else q }

def replaceEntryBy (n : String) (f : ResourceEntry → ResourceEntry)
    (ty : ResourceTableType) : ResourceTableType :=
  { ty with entries := ty.entries.map fun q => if entryNameMatches n q then f q else q }

/-- Modelled from the spec (§4.4): `CreatePackage` aliases an existing
same-name package; with a supplied id it fails when the package already has
a different id, records the id when the package has none, and is idempotent
on same-name/same-id. -/
def ResourceTable.CreatePackage (t : ResourceTable) (n : String) (id : Option Nat) :
    ResourceTable × Option ResourceTablePackage :=
  let r := t.FindOrCreatePackage n
  match id, r.2.id with
  | none, _ => (r.1, some r.2)
  | some i, none =>
    (replacePackageBy n (fun q => { q with id := some i }) r.1,
     some { r.2 with id := some i })
  | some i, some j => if i = j then (r.1, some r.2) else (r.1, none)

/-- The type bucket of the resolved chain after the entry is ensured. -/
def prepTy (t : ResourceTable) (name : ResourceName) : ResourceTableType :=
  (((t.FindOrCreatePackage name.package).2.FindOrCreateType name.type).2.FindOrCreateEntry
    name.entry).1

/-- The entry of the resolved chain. -/
def prepEntry (t : ResourceTable) (name : ResourceName) : ResourceEntry :=
  (((t.FindOrCreatePackage name.package).2.FindOrCreateType name.type).2.FindOrCreateEntry
    name.entry).2

/-- The package of the resolved chain after its type bucket is ensured. -/
def prepPkg (t : ResourceTable) (name : ResourceName) : ResourceTablePackage :=
  replaceTypeBy name.type (fun _ => prepTy t name)
    ((t.FindOrCreatePackage name.package).2.FindOrCreateType name.type).1

/-- Modelled from the spec (§4.4): "Resolves or creates the
Package → Type Bucket → Entry chain."  Returns the table with the chain
present together with the (possibly fresh) package, type and entry. -/
def ResourceTable.prepare (t : ResourceTable) (name : ResourceName) :
    ResourceTable × ResourceTablePackage × ResourceTableType × ResourceEntry :=
  (replacePackageBy name.package (fun _ => prepPkg t name)
      (t.FindOrCreatePackage name.package).1,
   prepPkg t name, prepTy t name, prepEntry t name)

/-- A supplied id must agree with a recorded one (spec §4.4, §7: "a supplied
numeric id disagrees with one already recorded … operation fails"). -/
def idCheck (existing supplied : Option Nat) : Bool :=
  match existing, supplied with
  | some e, some s => e = s
  | _, _ => true

/-- The id that ends up recorded: the supplied one when present, otherwise
whatever was recorded before (spec §4.4: "otherwise the supplied id is
recorded"). -/
def mergeId (supplied existing : Option Nat) : Option Nat :=
  match supplied with
  | some i => some i
  | none => existing

/-- The committed entry: the new contents with any supplied entry id
recorded. -/
def commitEntryE (res_id : Option ResourceId) (e1 : ResourceEntry) : ResourceEntry :=
  { e1 with id := mergeId (res_id.map ResourceId.entry_id) e1.id }

/-- Commit into the type bucket: replace the entry and record any supplied
type id. -/
def commitTy (name : ResourceName) (res_id : Option ResourceId) (e1 : ResourceEntry)
    (ty : ResourceTableType) : ResourceTableType :=
  { replaceEntryBy name.entry (fun _ => commitEntryE res_id e1) ty
    with id := mergeId (res_id.map ResourceId.type_id) ty.id }

/-- Commit into the package: descend into the type bucket and record any
supplied package id. -/
def commitPkg (name : ResourceName) (res_id : Option ResourceId) (e1 : ResourceEntry)
    (p : ResourceTablePackage) : ResourceTablePackage :=
  { replaceTypeBy name.type (commitTy name res_id e1) p
    with id := mergeId (res_id.map ResourceId.package_id) p.id }

/-- Modelled from the spec (§4.4, §7): on success the new entry contents
and any supplied ids are committed into the chain; failures never reach
this step, so a rejected operation stores nothing. -/
def ResourceTable.commitEntry (t : ResourceTable) (name : ResourceName)
    (res_id : Option ResourceId) (e1 : ResourceEntry) : ResourceTable :=
  replacePackageBy name.package (commitPkg name res_id e1) t

def ResourceEntry.setValueAt (e : ResourceEntry) (config : ConfigDescription)
    (product : String) (v : Value) : ResourceEntry :=
  { e with values := e.values.map fun s =>
      if slotKeyMatches config product s then { s with value := some v } else s }

/-- Modelled from the spec (§4.4): the entry identifier is validated against
an allowed-character set (alphanumerics plus the listed extra characters;
the "allow mangled" variants pass a wider set). -/
def validResourceEntryName (validChars : List Char) (s : String) : Bool :=
  s.toList.all fun c => c.isAlphanum || validChars.contains c

/-- The character set ordinary resource names may use beyond
alphanumerics. -/
def resourceValidChars : List Char := ['.', '-', '_']

/-- Modelled from the spec (§4.4): placement of the value at the
(config, product) key of the resolved entry.  A key with no value yet takes
the value directly; otherwise the collision resolver decides: KeepOriginal
discards the incoming value without error, TakeNew replaces the existing
value, Conflict fails reporting both source locations. -/
def addPlace (t3 : ResourceTable) (name : ResourceName) (res_id : Option ResourceId)
    (config : ConfigDescription) (product : String) (value : Value)
    (resolver : Value → Value → CollisionResult) (entry : ResourceEntry) : AddResult :=
  match (entry.FindOrCreateValue config product).2.value with
  | none =>
    ⟨t3.commitEntry name res_id
        ((entry.FindOrCreateValue config product).1.setValueAt config product value),
      true, []⟩
  | some existing =>
    match resolver existing value with
    | .kKeepOriginal =>
      ⟨t3.commitEntry name res_id (entry.FindOrCreateValue config product).1, true, []⟩
    | .kTakeNew =>
      ⟨t3.commitEntry name res_id
          ((entry.FindOrCreateValue config product).1.setValueAt config product value),
        true, []⟩
    | .kConflict => ⟨t3, false, [.valueConflict existing.source value.source]⟩

/-- Modelled from the spec (§4.4, §7): `ResourceTable::AddResourceImpl`.
Validates the entry name, resolves or creates the chain, checks any
supplied id against the recorded package/type/entry ids, then places the
value at the (config, product) key through the collision resolver.  Every
failure returns before anything is committed. -/
def ResourceTable.AddResourceImpl (t : ResourceTable) (name : ResourceName)
    (res_id : Option ResourceId) (config : ConfigDescription) (product : String)
    (value : Value) (validChars : List Char)
    (resolver : Value → Value → CollisionResult) : AddResult :=
  if validResourceEntryName validChars name.entry then
    let r := t.prepare name
    if idCheck r.2.1.id (res_id.map ResourceId.package_id) then
      if idCheck r.2.2.1.id (res_id.map ResourceId.type_id) then
        if idCheck r.2.2.2.id (res_id.map ResourceId.entry_id) then
          addPlace r.1 name res_id config product value resolver r.2.2.2
        else
          ⟨r.1, false,
            [.idConflict (r.2.2.2.id.getD 0) ((res_id.map ResourceId.entry_id).getD 0)]⟩
      else
        ⟨r.1, false,
          [.idConflict (r.2.2.1.id.getD 0) ((res_id.map ResourceId.type_id).getD 0)]⟩
    else
      ⟨r.1, false,
        [.idConflict (r.2.1.id.getD 0) ((res_id.map ResourceId.package_id).getD 0)]⟩
  else
    ⟨t, false, [.invalidName name.entry]⟩

/-- Modelled from the spec (§4.4): the default collision resolver's intent —
weak/placeholder values yield to any concrete redeclaration, redeclaring
the same value kind takes the later definition, incompatible kinds
conflict.  `AddResourceImpl` takes the resolver as a parameter, so the
theorems below hold for any policy. -/
def ResolveValueCollision (existing incoming : Value) : CollisionResult :=
  if existing.weak && !incoming.weak then .kTakeNew
  else if incoming.weak && !existing.weak then .kKeepOriginal
  else if existing.kind = incoming.kind then .kTakeNew
  else .kConflict

/-- `ResourceTable::AddResource` (no id supplied). -/
def ResourceTable.AddResource (t : ResourceTable) (name : ResourceName)
    (config : ConfigDescription) (product : String) (value : Value) : AddResult :=
  t.AddResourceImpl name none config product value resourceValidChars ResolveValueCollision

/-- `ResourceTable::AddResource` with a numeric id. -/
def ResourceTable.AddResourceWithId (t : ResourceTable) (name : ResourceName)
    (res_id : ResourceId) (config : ConfigDescription) (product : String)
    (value : Value) : AddResult :=
  t.AddResourceImpl name (some res_id) config product value resourceValidChars
    ResolveValueCollision

/-- Modelled from the spec (§4.4): `SetSymbolStateImpl` resolves/creates the
chain, validates any supplied id against an existing one, and overwrites
the Entry's Symbol. -/
def ResourceTable.SetSymbolStateImpl (t : ResourceTable) (name : ResourceName)
    (res_id : Option ResourceId) (symbol : Symbol) (validChars : List Char) : AddResult :=
  if validResourceEntryName validChars name.entry then
    let r := t.prepare name
    if idCheck r.2.1.id (res_id.map ResourceId.package_id) then
      if idCheck r.2.2.1.id (res_id.map ResourceId.type_id) then
        if idCheck r.2.2.2.id (res_id.map ResourceId.entry_id) then
          ⟨r.1.commitEntry name res_id { r.2.2.2 with symbol_status := symbol }, true, []⟩
        else
          ⟨r.1, false,
            [.idConflict (r.2.2.2.id.getD 0) ((res_id.map ResourceId.entry_id).getD 0)]⟩
      else
        ⟨r.1, false,
          [.idConflict (r.2.2.1.id.getD 0) ((res_id.map ResourceId.type_id).getD 0)]⟩
    else
      ⟨r.1, false,
        [.idConflict (r.2.1.id.getD 0) ((res_id.map ResourceId.package_id).getD 0)]⟩
  else
    ⟨t, false, [.invalidName name.entry]⟩

/-- `ResourceTable::SetSymbolState`. -/
def ResourceTable.SetSymbolState (t : ResourceTable) (name : ResourceName)
    (res_id : Option ResourceId) (symbol : Symbol) : AddResult :=
  t.SetSymbolStateImpl name res_id symbol resourceValidChars

/-- `ResourceTable::FindResource`: exact structural lookup, no creation, no
validation (spec §4.4); a pure function of the table. -/
def ResourceTable.FindResource (t : ResourceTable) (name : ResourceName) :
    Option (ResourceTablePackage × ResourceTableType × ResourceEntry) :=
  (t.FindPackage name.package).bind fun p =>
    (p.FindType name.type).bind fun ty =>
      (ty.FindEntry name.entry).map fun e => (p, ty, e)

/-! ### Observations used by the theorems -/
def ResourceTable.entryAt (t : ResourceTable) (name : ResourceName) :
    Option ResourceEntry :=
  (t.FindResource name).map fun r => r.2.2

def ResourceTable.valueAt (t : ResourceTable) (name : ResourceName)
    (config : ConfigDescription) (product : String) : Option Value :=
  (t.entryAt name).bind fun e => (e.FindValue config product).bind fun s => s.value

def ResourceTable.entryIdAt (t : ResourceTable) (name : ResourceName) : Option Nat :=
  (t.entryAt name).bind fun e => e.id

def ResourceTable.symbolAt (t : ResourceTable) (name : ResourceName) : SymbolState :=
  ((t.entryAt name).map fun e => e.symbol_status.state).getD .kUndefined

def ResourceTable.packageIdAt (t : ResourceTable) (n : String) : Option Nat :=
  (t.FindPackage n).bind fun p => p.id

def ResourceTable.typeIdAt (t : ResourceTable) (n : String) (τ : ResourceType) :
    Option Nat :=
  ((t.FindPackage n).bind fun p => p.FindType τ).bind fun ty => ty.id

/-- Key uniqueness inside one entry: at most one live slot per
(configuration, product) key (spec §3). -/
def ResourceEntry.KeysUnique (e : ResourceEntry) : Prop :=
  e.values.Pairwise fun a b => ¬(a.config = b.config ∧ a.product = b.product)

def ResourceTable.KeysUnique (t : ResourceTable) : Prop :=
  ∀ name e, t.entryAt name = some e → e.KeysUnique

/-- The ordering invariant of spec §3/§4.3: packages sorted by name, and
every type bucket's entries sorted by entry name. -/
def ResourceTable.SortedByName (t : ResourceTable) : Prop :=
  t.packages.Pairwise (fun a b => a.name < b.name) ∧
  ∀ p ∈ t.packages, ∀ ty ∈ p.types, ty.entries.Pairwise (fun a b => a.name < b.name)

/-- One recorded add operation: the arguments of one `AddResource` call. -/
structure AddOp where
  name : ResourceName
  res_id : Option ResourceId
  config : ConfigDescription
  product : String
  value : Value
  validChars : List Char
deriving DecidableEq, Repr

/-- Replay a list of add operations against a table. -/
def applyAddOps (resolver : Value → Value → CollisionResult) :
    ResourceTable → List AddOp → ResourceTable
  | t, [] => t
  | t, op :: ops =>
    applyAddOps resolver
      (t.AddResourceImpl op.name op.res_id op.config op.product op.value op.validChars
        resolver).table ops

end Aapt

namespace Aapt

variable {α : Type} {κ : Type} [LinearOrder κ]

theorem mem_insertSortedBy (key : α → κ) (x : α) (l : List α) (z : α) :
    z ∈ insertSortedBy key x l ↔ z = x ∨ z ∈ l := by
  induction l with
  | nil => simp [insertSortedBy]
  | cons y ys ih =>
    by_cases h : key x < key y
    · simp only [insertSortedBy, if_pos h, List.mem_cons]
    · simp only [insertSortedBy, if_neg h, List.mem_cons, ih]
      tauto

theorem find?_insertSortedBy_neg (key : α → κ) (x : α) (l : List α) (p : α → Bool)
    (hx : p x = false) :
    (insertSortedBy key x l).find? p = l.find? p := by
  induction l with
  | nil => simp [insertSortedBy, List.find?, hx]
  | cons y ys ih =>
    by_cases h : key x < key y
    · simp [insertSortedBy, h, List.find?, hx]
    · simp only [insertSortedBy, if_neg h, List.find?]
      cases hy : p y with
      | true => rfl
      | false => exact ih

theorem find?_insertSortedBy_pos (key : α → κ) (x : α) (l : List α) (p : α → Bool)
    (hx : p x = true) (hl : ∀ y ∈ l, p y = false) :
    (insertSortedBy key x l).find? p = some x := by
  induction l with
  | nil => simp [insertSortedBy, List.find?, hx]
  | cons y ys ih =>
    have hy : p y = false := hl y (List.mem_cons_self y ys)
    by_cases h : key x < key y
    · simp [insertSortedBy, h, List.find?, hx]
    · simp only [insertSortedBy, if_neg h, List.find?, hy]
      exact ih (fun z hz => hl z (List.mem_cons_of_mem y hz))

theorem pairwise_insertSortedBy (key : α → κ) (x : α) (l : List α)
    (hl : l.Pairwise (fun a b => key a < key b))
    (habs : ∀ y ∈ l, key y ≠ key x) :
    (insertSortedBy key x l).Pairwise (fun a b => key a < key b) := by
  induction l with
  | nil => simp [insertSortedBy]
  | cons y ys ih =>
    rcases List.pairwise_cons.mp hl with ⟨hy, hys⟩
    by_cases h : key x < key y
    · simp only [insertSortedBy, if_pos h]
      refine List.pairwise_cons.mpr ⟨?_, hl⟩
      intro z hz
      rcases List.mem_cons.mp hz with rfl | hz
      · exact h
      · exact lt_trans h (hy z hz)
    · have hyx : key y < key x := by
        rcases lt_or_eq_of_le (le_of_not_lt h) with h' | h'
        · exact h'
        · exact absurd h' (habs y (List.mem_cons_self y ys))
      simp only [insertSortedBy, if_neg h]
      refine List.pairwise_cons.mpr ⟨?_, ih hys (fun z hz => habs z (List.mem_cons_of_mem y hz))⟩
      intro z hz
      rcases (mem_insertSortedBy key x ys z).mp hz with rfl | hz
      · exact hyx
      · exact hy z hz

theorem find?_map_stable (g : α → α) (p : α → Bool) (l : List α)
    (h : ∀ y, p (g y) = p y) :
    (l.map g).find? p = (l.find? p).map g := by
  induction l with
  | nil => simp [List.find?]
  | cons y ys ih =>
    simp only [List.map, List.find?, h y]
    cases hy : p y with
    | true => rfl
    | false => exact ih

theorem find?_append_of_none {l1 l2 : List α} {p : α → Bool}
    (h : l1.find? p = none) : (l1 ++ l2).find? p = l2.find? p := by
  induction l1 with
  | nil => simp
  | cons y ys ih =>
    simp only [List.find?] at h ⊢
    cases hy : p y with
    | true => simp [hy] at h
    | false =>
      simp only [hy] at h ⊢
      exact ih h

theorem find?_append_of_some {l1 l2 : List α} {p : α → Bool} {a : α}
    (h : l1.find? p = some a) : (l1 ++ l2).find? p = some a := by
  induction l1 with
  | nil => simp [List.find?] at h
  | cons y ys ih =>
    simp only [List.find?] at h ⊢
    cases hy : p y with
    | true => simpa [hy] using h
    | false =>
      simp only [hy] at h ⊢
      exact ih h

end Aapt

namespace Aapt

theorem poolFindIdx_get {s : String} {l : List String} {i : Nat}
    (h : poolFindIdx s l = some i) : l.get? i = some s := by
  induction l generalizing i with
  | nil => simp [poolFindIdx] at h
  | cons t ts ih =>
    by_cases ht : t = s
    · simp only [poolFindIdx, if_pos ht, Option.some.injEq] at h
      subst h
      simp [ht]
    · simp only [poolFindIdx, if_neg ht, Option.map_eq_some'] at h
      rcases h with ⟨j, hj, hij⟩
      subst hij
      simpa using ih hj

theorem poolFindIdx_append_self {s : String} {l : List String}
    (h : poolFindIdx s l = none) : poolFindIdx s (l ++ [s]) = some l.length := by
  induction l with
  | nil => simp [poolFindIdx]
  | cons t ts ih =>
    by_cases ht : t = s
    · simp [poolFindIdx, ht] at h
    · simp only [poolFindIdx, if_neg ht, Option.map_eq_none'] at h
      simp [poolFindIdx, if_neg ht, ih h, List.length_cons]

theorem get?_append_length (l : List String) (s : String) :
    (l ++ [s]).get? l.length = some s := by
  induction l with
  | nil => rfl
  | cons t ts ih => exact ih

theorem get?_append_left {l l' : List String} {i : Nat} {x : String}
    (h : l.get? i = some x) : (l ++ l').get? i = some x := by
  induction l generalizing i with
  | nil => simp [List.get?] at h
  | cons t ts ih =>
    cases i with
    | zero => simpa using h
    | succ j => simpa using ih (by simpa using h)

/-- C6: interning is deduplicating and idempotent: interning the same text a
second time returns an equal handle, adds no entry (the pool is unchanged, so
its distinct-entry count does not grow), both handles denote the same stored
string, and no entry present before the first call is evicted by it. -/
theorem C6_intern_dedup_idempotent (p : StringPool) (s : String) :
    ((p.MakeRef s).1.MakeRef s).2 = (p.MakeRef s).2 ∧
    ((p.MakeRef s).1.MakeRef s).1 = (p.MakeRef s).1 ∧
    (p.MakeRef s).1.strings.get? (p.MakeRef s).2 = some s ∧
    (∀ i x, p.strings.get? i = some x → (p.MakeRef s).1.strings.get? i = some x) := by
  cases hfind : poolFindIdx s p.strings with
  | some i =>
    have e1 : p.MakeRef s = (p, i) := by
      simp only [StringPool.MakeRef, hfind]
    refine ⟨by simp only [e1], by simp only [e1], ?_, ?_⟩
    · simp only [e1]
      exact poolFindIdx_get hfind
    · simp only [e1]
      exact fun _ _ h => h
  | none =>
    have e1 : p.MakeRef s = (⟨p.strings ++ [s]⟩, p.strings.length) := by
      simp only [StringPool.MakeRef, hfind]
    have e2 : (⟨p.strings ++ [s]⟩ : StringPool).MakeRef s =
        ((⟨p.strings ++ [s]⟩ : StringPool), p.strings.length) := by
      simp only [StringPool.MakeRef, poolFindIdx_append_self hfind]
    refine ⟨by simp only [e1, e2], by simp only [e1, e2], ?_, ?_⟩
    · simp only [e1]
      exact get?_append_length p.strings s
    · simp only [e1]
      exact fun i x h => get?_append_left h

/-- Closed instance of `C6_intern_dedup_idempotent` at a concrete pool. -/
theorem C6_intern_dedup_idempotent_witness :
    (((⟨["a"]⟩ : StringPool).MakeRef "b").1.MakeRef "b").2 = ((⟨["a"]⟩ : StringPool).MakeRef "b").2 ∧
    ((⟨["a"]⟩ : StringPool).strings.get? 0 = some "a" →
      (((⟨["a"]⟩ : StringPool).MakeRef "b").1.strings.get? 0 = some "a")) :=
  ⟨(C6_intern_dedup_idempotent ⟨["a"]⟩ "b").1,
   fun h => (C6_intern_dedup_idempotent ⟨["a"]⟩ "b").2.2.2 0 "a" h⟩

end Aapt

namespace Xml

theorem Consume_no_root (rest : ManifestFixerOptions → Element → Option Element)
    (options : ManifestFixerOptions) (doc : XmlResource)
    (h : FindRootElement doc = none) :
    ManifestFixer.Consume rest options doc =
      ⟨false, doc, ["root tag must be <manifest>"]⟩ := by
  simp only [ManifestFixer.Consume, h]

theorem Consume_bad_root (rest : ManifestFixerOptions → Element → Option Element)
    (options : ManifestFixerOptions) (doc : XmlResource) (root : Element)
    (h : FindRootElement doc = some root)
    (hbad : ¬(root.namespace_uri = "" ∧ root.name = "manifest")) :
    ManifestFixer.Consume rest options doc =
      ⟨false, doc, ["root tag must be <manifest>"]⟩ := by
  simp only [ManifestFixer.Consume, h]
  rw [if_neg hbad]

theorem addMinSdk_of_present (options : ManifestFixerOptions) (el : Element) (a : Attribute)
    (ha : el.FindAttribute kSchemaAndroid "minSdkVersion" = some a) :
    addMinSdk options el = el := by
  unfold addMinSdk
  rw [ha]
  cases options.min_sdk_version_default <;> rfl

theorem addTargetSdk_of_present (options : ManifestFixerOptions) (el : Element) (a : Attribute)
    (ha : el.FindAttribute kSchemaAndroid "targetSdkVersion" = some a) :
    addTargetSdk options el = el := by
  unfold addTargetSdk
  rw [ha]
  cases options.target_sdk_version_default <;> rfl

theorem attrMatches_target_min (v : String) :
    attrMatches kSchemaAndroid "targetSdkVersion"
      (⟨kSchemaAndroid, "minSdkVersion", v⟩ : Attribute) = false := by
  rfl

theorem attrMatches_min_target (v : String) :
    attrMatches kSchemaAndroid "minSdkVersion"
      (⟨kSchemaAndroid, "targetSdkVersion", v⟩ : Attribute) = false := by
  rfl

theorem addMinSdk_target_frame (options : ManifestFixerOptions) (el : Element) :
    (addMinSdk options el).FindAttribute kSchemaAndroid "targetSdkVersion" =
      el.FindAttribute kSchemaAndroid "targetSdkVersion" := by
  unfold addMinSdk
  cases hmin : options.min_sdk_version_default with
  | none => cases el.FindAttribute kSchemaAndroid "minSdkVersion" <;> rfl
  | some v =>
    cases hfa : el.FindAttribute kSchemaAndroid "minSdkVersion" with
    | some b => rfl
    | none =>
      cases el with
      | mk ns n as cs =>
        show (as ++ [(⟨kSchemaAndroid, "minSdkVersion", v⟩ : Attribute)]).find?
            (attrMatches kSchemaAndroid "targetSdkVersion") =
          as.find? (attrMatches kSchemaAndroid "targetSdkVersion")
        cases hfind : as.find? (attrMatches kSchemaAndroid "targetSdkVersion") with
        | some b => exact Aapt.find?_append_of_some hfind
        | none =>
          rw [Aapt.find?_append_of_none hfind]
          simp [List.find?, attrMatches_target_min]

theorem addTargetSdk_min_frame (options : ManifestFixerOptions) (el : Element) :
    (addTargetSdk options el).FindAttribute kSchemaAndroid "minSdkVersion" =
      el.FindAttribute kSchemaAndroid "minSdkVersion" := by
  unfold addTargetSdk
  cases htd : options.target_sdk_version_default with
  | none => cases el.FindAttribute kSchemaAndroid "targetSdkVersion" <;> rfl
  | some v =>
    cases hfa : el.FindAttribute kSchemaAndroid "targetSdkVersion" with
    | some b => rfl
    | none =>
      cases el with
      | mk ns n as cs =>
        show (as ++ [(⟨kSchemaAndroid, "targetSdkVersion", v⟩ : Attribute)]).find?
            (attrMatches kSchemaAndroid "minSdkVersion") =
          as.find? (attrMatches kSchemaAndroid "minSdkVersion")
        cases hfind : as.find? (attrMatches kSchemaAndroid "minSdkVersion") with
        | some b => exact Aapt.find?_append_of_some hfind
        | none =>
          rw [Aapt.find?_append_of_none hfind]
          simp [List.find?, attrMatches_min_target]

/-- C9: for every document whose root element is absent, is not named
`manifest`, or carries a non-empty namespace URI, `ManifestFixer::Consume`
emits the "root tag must be <manifest>" error, returns failure, and leaves
the document unmodified. -/
theorem C9_consume_rejects_bad_root (rest : ManifestFixerOptions → Element → Option Element)
    (options : ManifestFixerOptions) (doc : XmlResource)
    (h : ∀ root, FindRootElement doc = some root →
        ¬(root.namespace_uri = "" ∧ root.name = "manifest")) :
    ManifestFixer.Consume rest options doc =
      ⟨false, doc, ["root tag must be <manifest>"]⟩ := by
  cases hr : FindRootElement doc with
  | none => exact Consume_no_root rest options doc hr
  | some root => exact Consume_bad_root rest options doc root hr (h root hr)

/-- Closed instance of `C9_consume_rejects_bad_root` on a document whose
root element is `<application>`. -/
theorem C9_consume_rejects_bad_root_witness :
    ManifestFixer.Consume (fun _ el => some el) {}
        ⟨some (.mk "" "application" [] [])⟩ =
      ⟨false, ⟨some (.mk "" "application" [] [])⟩, ["root tag must be <manifest>"]⟩ :=
  C9_consume_rejects_bad_root (fun _ el => some el) {} ⟨some (.mk "" "application" [] [])⟩
    (by
      intro root hr
      cases hr
      intro hc
      exact absurd hc.2 (by decide))

/-- C10: SDK-version defaults never overwrite explicit values: the
`uses-sdk` insertion step leaves a manifest that already has a `uses-sdk`
child unchanged; the `uses-sdk` action keeps an already-present
`minSdkVersion` (resp. `targetSdkVersion`) attribute with its original
value; when both attributes are present the action changes nothing; and
`Consume` on a manifest that already has a `uses-sdk` child passes the root
through to the remaining phases without inserting anything. -/
theorem C10_sdk_defaults_do_not_overwrite (options : ManifestFixerOptions) (root el : Element) :
    (root.FindChild "" "uses-sdk" ≠ none → insertUsesSdk options root = root) ∧
    (∀ a, el.FindAttribute kSchemaAndroid "minSdkVersion" = some a →
        (usesSdkAction options el).FindAttribute kSchemaAndroid "minSdkVersion" = some a) ∧
    (∀ a, el.FindAttribute kSchemaAndroid "targetSdkVersion" = some a →
        (usesSdkAction options el).FindAttribute kSchemaAndroid "targetSdkVersion" = some a) ∧
    (el.FindAttribute kSchemaAndroid "minSdkVersion" ≠ none →
      el.FindAttribute kSchemaAndroid "targetSdkVersion" ≠ none →
      usesSdkAction options el = el) ∧
    (root.namespace_uri = "" → root.name = "manifest" →
      root.FindChild "" "uses-sdk" ≠ none →
      ManifestFixer.Consume (fun _ e => some e) options ⟨some root⟩ =
        ⟨true, ⟨some root⟩, []⟩) := by
  have hins : root.FindChild "" "uses-sdk" ≠ none → insertUsesSdk options root = root := by
    intro h
    unfold insertUsesSdk
    have hn : (root.FindChild "" "uses-sdk").isNone = false := by
      cases hc : root.FindChild "" "uses-sdk" with
      | none => exact absurd hc h
      | some c => rfl
    rw [hn]
    simp
  refine ⟨hins, ?_, ?_, ?_, ?_⟩
  · intro a ha
    unfold usesSdkAction
    rw [addMinSdk_of_present options el a ha, addTargetSdk_min_frame options el, ha]
  · intro a ha
    unfold usesSdkAction
    have ha1 : (addMinSdk options el).FindAttribute kSchemaAndroid "targetSdkVersion" = some a := by
      rw [addMinSdk_target_frame options el, ha]
    rw [addTargetSdk_of_present options (addMinSdk options el) a ha1,
      addMinSdk_target_frame options el, ha]
  · intro hmin htgt
    cases hm : el.FindAttribute kSchemaAndroid "minSdkVersion" with
    | none => exact absurd hm hmin
    | some a =>
      cases ht : el.FindAttribute kSchemaAndroid "targetSdkVersion" with
      | none => exact absurd ht htgt
      | some b =>
        unfold usesSdkAction
        rw [addMinSdk_of_present options el a hm, addTargetSdk_of_present options el b ht]
  · intro hns hname hchild
    simp only [ManifestFixer.Consume, FindRootElement]
    rw [if_pos ⟨hns, hname⟩, hins hchild]

/-- Closed instance of `C10_sdk_defaults_do_not_overwrite`: a manifest with
an explicit `minSdkVersion` of 9 keeps it although the default says 21. -/
theorem C10_sdk_defaults_do_not_overwrite_witness :
    (usesSdkAction { min_sdk_version_default := some "21" }
        (.mk "" "uses-sdk" [(⟨kSchemaAndroid, "minSdkVersion", "9"⟩ : Attribute)] [])).FindAttribute
        kSchemaAndroid "minSdkVersion" = some (⟨kSchemaAndroid, "minSdkVersion", "9"⟩ : Attribute) :=
  (C10_sdk_defaults_do_not_overwrite { min_sdk_version_default := some "21" }
      (.mk "" "manifest" [] [])
      (.mk "" "uses-sdk" [(⟨kSchemaAndroid, "minSdkVersion", "9"⟩ : Attribute)] [])).2.1
    (⟨kSchemaAndroid, "minSdkVersion", "9"⟩ : Attribute) (by rfl)

end Xml

namespace Aapt

/-! ### Basic lookup lemmas -/
theorem bool_eq_false_of_not {b : Bool} (h : ¬ b = true) : b = false := by
  cases b
  · rfl
  · exact absurd rfl h

theorem FindPackage_name {t : ResourceTable} {n : String} {p : ResourceTablePackage}
    (h : t.FindPackage n = some p) : p.name = n := by
  have hp := List.find?_some h
  simpa [pkgNameMatches] using hp

theorem FindType_tag {p : ResourceTablePackage} {τ : ResourceType} {ty : ResourceTableType}
    (h : p.FindType τ = some ty) : ty.type = τ := by
  have hp := List.find?_some h
  simpa [typeTagMatches] using hp

theorem FindEntry_name {ty : ResourceTableType} {n : String} {e : ResourceEntry}
    (h : ty.FindEntry n = some e) : e.name = n := by
  have hp := List.find?_some h
  simpa [entryNameMatches] using hp

theorem FindValue_key {e : ResourceEntry} {c : ConfigDescription} {prod : String}
    {s : ResourceConfigValue} (h : e.FindValue c prod = some s) :
    s.config = c ∧ s.product = prod := by
  have hp := List.find?_some h
  simpa [slotKeyMatches] using hp

/-! ### Find-or-create lemmas -/
theorem FindOrCreatePackage_snd (t : ResourceTable) (n : String) :
    (t.FindOrCreatePackage n).2 = (t.FindPackage n).getD (freshPackage n) := by
  unfold ResourceTable.FindOrCreatePackage
  cases t.FindPackage n <;> rfl

theorem FindPackage_FindOrCreatePackage_self (t : ResourceTable) (n : String) :
    (t.FindOrCreatePackage n).1.FindPackage n = some ((t.FindOrCreatePackage n).2) := by
  unfold ResourceTable.FindOrCreatePackage
  cases hfp : t.FindPackage n with
  | some p => exact hfp
  | none =>
    show ResourceTable.FindPackage _ n = _
    unfold ResourceTable.FindPackage
    apply find?_insertSortedBy_pos
    · simp [pkgNameMatches, freshPackage]
    · intro y hy
      exact bool_eq_false_of_not (List.find?_eq_none.mp hfp y hy)

theorem FindPackage_FindOrCreatePackage_frame (t : ResourceTable) {n m : String}
    (hnm : m ≠ n) :
    (t.FindOrCreatePackage n).1.FindPackage m = t.FindPackage m := by
  unfold ResourceTable.FindOrCreatePackage
  cases hfp : t.FindPackage n with
  | some p => rfl
  | none =>
    show ResourceTable.FindPackage _ m = _
    unfold ResourceTable.FindPackage
    apply find?_insertSortedBy_neg
    simp only [pkgNameMatches, freshPackage]
    simp only [decide_eq_false_iff_not]
    exact fun h => hnm h.symm

theorem FindOrCreateType_snd (p : ResourceTablePackage) (τ : ResourceType) :
    (p.FindOrCreateType τ).2 = (p.FindType τ).getD (freshType τ) := by
  unfold ResourceTablePackage.FindOrCreateType
  cases p.FindType τ <;> rfl

theorem FindOrCreateType_fst_name (p : ResourceTablePackage) (τ : ResourceType) :
    (p.FindOrCreateType τ).1.name = p.name := by
  unfold ResourceTablePackage.FindOrCreateType
  cases p.FindType τ <;> rfl

theorem FindOrCreateType_fst_id (p : ResourceTablePackage) (τ : ResourceType) :
    (p.FindOrCreateType τ).1.id = p.id := by
  unfold ResourceTablePackage.FindOrCreateType
  cases p.FindType τ <;> rfl

theorem FindType_FindOrCreateType_self (p : ResourceTablePackage) (τ : ResourceType) :
    (p.FindOrCreateType τ).1.FindType τ = some ((p.FindOrCreateType τ).2) := by
  unfold ResourceTablePackage.FindOrCreateType
  cases hft : p.FindType τ with
  | some ty => exact hft
  | none =>
    show ResourceTablePackage.FindType _ τ = _
    unfold ResourceTablePackage.FindType
    apply find?_insertSortedBy_pos
    · simp [typeTagMatches, freshType]
    · intro y hy
      exact bool_eq_false_of_not (List.find?_eq_none.mp hft y hy)

theorem FindType_FindOrCreateType_frame (p : ResourceTablePackage) {τ σ : ResourceType}
    (hστ : σ ≠ τ) :
    (p.FindOrCreateType τ).1.FindType σ = p.FindType σ := by
  unfold ResourceTablePackage.FindOrCreateType
  cases hft : p.FindType τ with
  | some ty => rfl
  | none =>
    show ResourceTablePackage.FindType _ σ = _
    unfold ResourceTablePackage.FindType
    apply find?_insertSortedBy_neg
    simp only [typeTagMatches, freshType]
    simp only [decide_eq_false_iff_not]
    exact fun h => hστ h.symm

theorem FindOrCreateEntry_snd (ty : ResourceTableType) (n : String) :
    (ty.FindOrCreateEntry n).2 = (ty.FindEntry n).getD (freshEntry n) := by
  unfold ResourceTableType.FindOrCreateEntry
  cases ty.FindEntry n <;> rfl

theorem FindOrCreateEntry_fst_type (ty : ResourceTableType) (n : String) :
    (ty.FindOrCreateEntry n).1.type = ty.type := by
  unfold ResourceTableType.FindOrCreateEntry
  cases ty.FindEntry n <;> rfl

theorem FindOrCreateEntry_fst_id (ty : ResourceTableType) (n : String) :
    (ty.FindOrCreateEntry n).1.id = ty.id := by
  unfold ResourceTableType.FindOrCreateEntry
  cases ty.FindEntry n <;> rfl

theorem FindEntry_FindOrCreateEntry_self (ty : ResourceTableType) (n : String) :
    (ty.FindOrCreateEntry n).1.FindEntry n = some ((ty.FindOrCreateEntry n).2) := by
  unfold ResourceTableType.FindOrCreateEntry
  cases hfe : ty.FindEntry n with
  | some e => exact hfe
  | none =>
    show ResourceTableType.FindEntry _ n = _
    unfold ResourceTableType.FindEntry
    apply find?_insertSortedBy_pos
    · simp [entryNameMatches, freshEntry]
    · intro y hy
      exact bool_eq_false_of_not (List.find?_eq_none.mp hfe y hy)

theorem FindEntry_FindOrCreateEntry_frame (ty : ResourceTableType) {n m : String}
    (hnm : m ≠ n) :
    (ty.FindOrCreateEntry n).1.FindEntry m = ty.FindEntry m := by
  unfold ResourceTableType.FindOrCreateEntry
  cases hfe : ty.FindEntry n with
  | some e => rfl
  | none =>
    show ResourceTableType.FindEntry _ m = _
    unfold ResourceTableType.FindEntry
    apply find?_insertSortedBy_neg
    simp only [entryNameMatches, freshEntry]
    simp only [decide_eq_false_iff_not]
    exact fun h => hnm h.symm

theorem FindOrCreateValue_snd (e : ResourceEntry) (c : ConfigDescription) (prod : String) :
    (e.FindOrCreateValue c prod).2 =
      (e.FindValue c prod).getD ⟨c, prod, none⟩ := by
  unfold ResourceEntry.FindOrCreateValue
  cases e.FindValue c prod <;> rfl

theorem FindOrCreateValue_fst_name (e : ResourceEntry) (c : ConfigDescription) (prod : String) :
    (e.FindOrCreateValue c prod).1.name = e.name := by
  unfold ResourceEntry.FindOrCreateValue
  cases e.FindValue c prod <;> rfl

theorem FindOrCreateValue_fst_id (e : ResourceEntry) (c : ConfigDescription) (prod : String) :
    (e.FindOrCreateValue c prod).1.id = e.id := by
  unfold ResourceEntry.FindOrCreateValue
  cases e.FindValue c prod <;> rfl

theorem FindOrCreateValue_fst_symbol (e : ResourceEntry) (c : ConfigDescription) (prod : String) :
    (e.FindOrCreateValue c prod).1.symbol_status = e.symbol_status := by
  unfold ResourceEntry.FindOrCreateValue
  cases e.FindValue c prod <;> rfl

theorem FindValue_FindOrCreateValue_self (e : ResourceEntry) (c : ConfigDescription)
    (prod : String) :
    (e.FindOrCreateValue c prod).1.FindValue c prod =
      some ((e.FindOrCreateValue c prod).2) := by
  unfold ResourceEntry.FindOrCreateValue
  cases hfv : e.FindValue c prod with
  | some s => exact hfv
  | none =>
    show ResourceEntry.FindValue _ c prod = _
    unfold ResourceEntry.FindValue
    rw [find?_append_of_none hfv]
    simp [List.find?, slotKeyMatches]

theorem FindValue_FindOrCreateValue_frame (e : ResourceEntry) {c c' : ConfigDescription}
    {prod p' : String} (hk : ¬(c' = c ∧ p' = prod)) :
    (e.FindOrCreateValue c prod).1.FindValue c' p' = e.FindValue c' p' := by
  unfold ResourceEntry.FindOrCreateValue
  cases hfv : e.FindValue c prod with
  | some s => rfl
  | none =>
    show ResourceEntry.FindValue _ c' p' = _
    unfold ResourceEntry.FindValue
    cases hf : e.values.find? (slotKeyMatches c' p') with
    | some s => exact find?_append_of_some hf
    | none =>
      rw [find?_append_of_none hf]
      have hpred : slotKeyMatches c' p' (⟨c, prod, none⟩ : ResourceConfigValue) = false := by
        simp only [slotKeyMatches, Bool.and_eq_false_iff, decide_eq_false_iff_not]
        by_cases hc : c = c'
        · right
          intro hp
          exact hk ⟨hc.symm, hp.symm⟩
        · left
          exact hc
      simp [List.find?, hpred]

/-! ### Update lemmas -/
theorem FindValue_setValueAt (e : ResourceEntry) (c : ConfigDescription) (prod : String)
    (v : Value) (c' : ConfigDescription) (p' : String) :
    (e.setValueAt c prod v).FindValue c' p' =
      Option.map (fun s => if slotKeyMatches c prod s then { s with value := some v } else s)
        (e.FindValue c' p') := by
  unfold ResourceEntry.setValueAt ResourceEntry.FindValue
  apply find?_map_stable
  intro y
  by_cases hy : slotKeyMatches c prod y
  · rw [if_pos hy]
    rfl
  · rw [if_neg hy]

theorem setValueAt_name (e : ResourceEntry) (c : ConfigDescription) (prod : String)
    (v : Value) : (e.setValueAt c prod v).name = e.name := rfl

theorem setValueAt_id (e : ResourceEntry) (c : ConfigDescription) (prod : String)
    (v : Value) : (e.setValueAt c prod v).id = e.id := rfl

theorem FindPackage_replacePackageBy (N : String)
    (f : ResourceTablePackage → ResourceTablePackage) (t : ResourceTable) (m : String)
    (hf : ∀ q, pkgNameMatches N q = true → (f q).name = q.name) :
    (replacePackageBy N f t).FindPackage m =
      Option.map (fun q => if pkgNameMatches N q then f q else q) (t.FindPackage m) := by
  unfold replacePackageBy ResourceTable.FindPackage
  apply find?_map_stable
  intro y
  by_cases hy : pkgNameMatches N y
  · rw [if_pos hy]
    simp only [pkgNameMatches]
    rw [hf y hy]
  · rw [if_neg hy]

theorem FindPackage_replacePackageBy_ne (N : String)
    (f : ResourceTablePackage → ResourceTablePackage) (t : ResourceTable) (m : String)
    (hf : ∀ q, pkgNameMatches N q = true → (f q).name = q.name) (hm : m ≠ N) :
    (replacePackageBy N f t).FindPackage m = t.FindPackage m := by
  rw [FindPackage_replacePackageBy N f t m hf]
  cases hq : t.FindPackage m with
  | none => rfl
  | some q =>
    have hname : q.name = m := FindPackage_name hq
    have hfalse : pkgNameMatches N q = false := by
      simp only [pkgNameMatches, hname, decide_eq_false_iff_not]
      exact hm
    simp [hfalse]

theorem FindPackage_replacePackageBy_eq (N : String)
    (f : ResourceTablePackage → ResourceTablePackage) (t : ResourceTable)
    (q : ResourceTablePackage)
    (hf : ∀ q, pkgNameMatches N q = true → (f q).name = q.name)
    (hq : t.FindPackage N = some q) :
    (replacePackageBy N f t).FindPackage N = some (f q) := by
  rw [FindPackage_replacePackageBy N f t N hf, hq]
  have htrue : pkgNameMatches N q = true := by
    simp [pkgNameMatches, FindPackage_name hq]
  simp [htrue]

theorem FindType_replaceTypeBy (τ : ResourceType)
    (f : ResourceTableType → ResourceTableType) (p : ResourceTablePackage) (σ : ResourceType)
    (hf : ∀ q, typeTagMatches τ q = true → (f q).type = q.type) :
    (replaceTypeBy τ f p).FindType σ =
      Option.map (fun q => if typeTagMatches τ q then f q else q) (p.FindType σ) := by
  unfold replaceTypeBy ResourceTablePackage.FindType
  apply find?_map_stable
  intro y
  by_cases hy : typeTagMatches τ y
  · rw [if_pos hy]
    simp only [typeTagMatches]
    rw [hf y hy]
  · rw [if_neg hy]

theorem FindType_replaceTypeBy_ne (τ : ResourceType)
    (f : ResourceTableType → ResourceTableType) (p : ResourceTablePackage) (σ : ResourceType)
    (hf : ∀ q, typeTagMatches τ q = true → (f q).type = q.type) (hσ : σ ≠ τ) :
    (replaceTypeBy τ f p).FindType σ = p.FindType σ := by
  rw [FindType_replaceTypeBy τ f p σ hf]
  cases hq : p.FindType σ with
  | none => rfl
  | some q =>
    have htag : q.type = σ := FindType_tag hq
    have hfalse : typeTagMatches τ q = false := by
      simp only [typeTagMatches, htag, decide_eq_false_iff_not]
      exact hσ
    simp [hfalse]

theorem FindType_replaceTypeBy_eq (τ : ResourceType)
    (f : ResourceTableType → ResourceTableType) (p : ResourceTablePackage)
    (q : ResourceTableType)
    (hf : ∀ q, typeTagMatches τ q = true → (f q).type = q.type)
    (hq : p.FindType τ = some q) :
    (replaceTypeBy τ f p).FindType τ = some (f q) := by
  rw [FindType_replaceTypeBy τ f p τ hf, hq]
  have htrue : typeTagMatches τ q = true := by
    simp [typeTagMatches, FindType_tag hq]
  simp [htrue]

theorem FindEntry_replaceEntryBy (n : String)
    (f : ResourceEntry → ResourceEntry) (ty : ResourceTableType) (m : String)
    (hf : ∀ q, entryNameMatches n q = true → (f q).name = q.name) :
    (replaceEntryBy n f ty).FindEntry m =
      Option.map (fun q => if entryNameMatches n q then f q else q) (ty.FindEntry m) := by
  unfold replaceEntryBy ResourceTableType.FindEntry
  apply find?_map_stable
  intro y
  by_cases hy : entryNameMatches n y
  · rw [if_pos hy]
    simp only [entryNameMatches]
    rw [hf y hy]
  · rw [if_neg hy]

theorem FindEntry_replaceEntryBy_ne (n : String)
    (f : ResourceEntry → ResourceEntry) (ty : ResourceTableType) (m : String)
    (hf : ∀ q, entryNameMatches n q = true → (f q).name = q.name) (hm : m ≠ n) :
    (replaceEntryBy n f ty).FindEntry m = ty.FindEntry m := by
  rw [FindEntry_replaceEntryBy n f ty m hf]
  cases hq : ty.FindEntry m with
  | none => rfl
  | some q =>
    have hname : q.name = m := FindEntry_name hq
    have hfalse : entryNameMatches n q = false := by
      simp only [entryNameMatches, hname, decide_eq_false_iff_not]
      exact hm
    simp [hfalse]

theorem FindEntry_replaceEntryBy_eq (n : String)
    (f : ResourceEntry → ResourceEntry) (ty : ResourceTableType)
    (q : ResourceEntry)
    (hf : ∀ q, entryNameMatches n q = true → (f q).name = q.name)
    (hq : ty.FindEntry n = some q) :
    (replaceEntryBy n f ty).FindEntry n = some (f q) := by
  rw [FindEntry_replaceEntryBy n f ty n hf, hq]
  have htrue : entryNameMatches n q = true := by
    simp [entryNameMatches, FindEntry_name hq]
  simp [htrue]

/-! ### Properties of the resolved chain -/
theorem FindOrCreatePackage_snd_name (t : ResourceTable) (n : String) :
    (t.FindOrCreatePackage n).2.name = n := by
  rw [FindOrCreatePackage_snd]
  cases hfp : t.FindPackage n with
  | none => rfl
  | some p => exact FindPackage_name hfp

theorem FindOrCreateType_snd_type (p : ResourceTablePackage) (τ : ResourceType) :
    (p.FindOrCreateType τ).2.type = τ := by
  rw [FindOrCreateType_snd]
  cases hft : p.FindType τ with
  | none => rfl
  | some ty => exact FindType_tag hft

theorem FindOrCreateEntry_snd_name (ty : ResourceTableType) (n : String) :
    (ty.FindOrCreateEntry n).2.name = n := by
  rw [FindOrCreateEntry_snd]
  cases hfe : ty.FindEntry n with
  | none => rfl
  | some e => exact FindEntry_name hfe

theorem replaceTypeBy_name (τ : ResourceType) (f : ResourceTableType → ResourceTableType)
    (p : ResourceTablePackage) : (replaceTypeBy τ f p).name = p.name := rfl

theorem replaceTypeBy_pkg_id (τ : ResourceType) (f : ResourceTableType → ResourceTableType)
    (p : ResourceTablePackage) : (replaceTypeBy τ f p).id = p.id := rfl

theorem freshPackage_FindType (n : String) (τ : ResourceType) :
    (freshPackage n).FindType τ = none := rfl

theorem freshType_FindEntry (τ : ResourceType) (n : String) :
    (freshType τ).FindEntry n = none := rfl

theorem freshEntry_FindValue (n : String) (c : ConfigDescription) (prod : String) :
    (freshEntry n).FindValue c prod = none := rfl

theorem prepPkg_name (t : ResourceTable) (name : ResourceName) :
    (prepPkg t name).name = name.package := by
  unfold prepPkg
  rw [replaceTypeBy_name, FindOrCreateType_fst_name, FindOrCreatePackage_snd_name]

theorem prepTy_type (t : ResourceTable) (name : ResourceName) :
    (prepTy t name).type = name.type := by
  unfold prepTy
  rw [FindOrCreateEntry_fst_type, FindOrCreateType_snd_type]

theorem prepEntry_name (t : ResourceTable) (name : ResourceName) :
    (prepEntry t name).name = name.entry := by
  unfold prepEntry
  rw [FindOrCreateEntry_snd_name]

theorem entryAt_eq (t : ResourceTable) (name : ResourceName) :
    t.entryAt name =
      ((t.FindPackage name.package).bind fun p => p.FindType name.type).bind
        fun ty => ty.FindEntry name.entry := by
  unfold ResourceTable.entryAt ResourceTable.FindResource
  cases t.FindPackage name.package with
  | none => rfl
  | some p =>
    simp only [Option.some_bind']
    cases p.FindType name.type with
    | none => rfl
    | some ty =>
      simp only [Option.some_bind']
      cases ty.FindEntry name.entry with
      | none => rfl
      | some e => rfl

theorem FindPackage_prepare (t : ResourceTable) (name : ResourceName) (m : String) :
    (t.prepare name).1.FindPackage m =
      if m = name.package then some (prepPkg t name) else t.FindPackage m := by
  show (replacePackageBy name.package (fun _ => prepPkg t name)
      (t.FindOrCreatePackage name.package).1).FindPackage m = _
  have hf : ∀ q, pkgNameMatches name.package q = true →
      ((fun (_ : ResourceTablePackage) => prepPkg t name) q).name = q.name := by
    intro q hq
    have hqn : q.name = name.package := by simpa [pkgNameMatches] using hq
    rw [prepPkg_name, hqn]
  by_cases hm : m = name.package
  · subst hm
    rw [FindPackage_replacePackageBy_eq _ (fun _ => prepPkg t name) _ _ hf
      (FindPackage_FindOrCreatePackage_self t _)]
    simp
  · rw [FindPackage_replacePackageBy_ne _ _ _ _ hf hm,
      FindPackage_FindOrCreatePackage_frame t hm, if_neg hm]

theorem FindType_prepPkg (t : ResourceTable) (name : ResourceName) (σ : ResourceType) :
    (prepPkg t name).FindType σ =
      if σ = name.type then some (prepTy t name)
      else ((t.FindOrCreatePackage name.package).2).FindType σ := by
  unfold prepPkg
  have hf : ∀ q, typeTagMatches name.type q = true →
      ((fun (_ : ResourceTableType) => prepTy t name) q).type = q.type := by
    intro q hq
    have hqt : q.type = name.type := by simpa [typeTagMatches] using hq
    rw [prepTy_type, hqt]
  by_cases hσ : σ = name.type
  · subst hσ
    rw [FindType_replaceTypeBy_eq _ _ _ _ hf (FindType_FindOrCreateType_self _ _)]
    simp
  · rw [FindType_replaceTypeBy_ne _ _ _ _ hf hσ, FindType_FindOrCreateType_frame _ hσ,
      if_neg hσ]

theorem FindEntry_prepTy (t : ResourceTable) (name : ResourceName) (m : String) :
    (prepTy t name).FindEntry m =
      if m = name.entry then some (prepEntry t name)
      else (((t.FindOrCreatePackage name.package).2.FindOrCreateType name.type).2).FindEntry
        m := by
  unfold prepTy prepEntry
  by_cases hm : m = name.entry
  · subst hm
    rw [if_pos rfl]
    exact FindEntry_FindOrCreateEntry_self _ _
  · rw [if_neg hm]
    exact FindEntry_FindOrCreateEntry_frame _ hm

theorem prepEntry_eq (t : ResourceTable) (name : ResourceName) :
    prepEntry t name = (t.entryAt name).getD (freshEntry name.entry) := by
  rw [entryAt_eq]
  unfold prepEntry
  rw [FindOrCreateEntry_snd, FindOrCreateType_snd, FindOrCreatePackage_snd]
  cases hfp : t.FindPackage name.package with
  | none => simp [freshPackage_FindType, freshType_FindEntry]
  | some p =>
    simp only [Option.getD_some, Option.some_bind']
    cases hft : p.FindType name.type with
    | none => simp [freshType_FindEntry]
    | some ty => simp

theorem prepPkg_id (t : ResourceTable) (name : ResourceName) :
    (prepPkg t name).id = t.packageIdAt name.package := by
  unfold prepPkg ResourceTable.packageIdAt
  rw [replaceTypeBy_pkg_id, FindOrCreateType_fst_id, FindOrCreatePackage_snd]
  cases t.FindPackage name.package <;> rfl

theorem prepTy_id (t : ResourceTable) (name : ResourceName) :
    (prepTy t name).id = t.typeIdAt name.package name.type := by
  unfold prepTy ResourceTable.typeIdAt
  rw [FindOrCreateEntry_fst_id, FindOrCreateType_snd, FindOrCreatePackage_snd]
  cases hfp : t.FindPackage name.package with
  | none => simp [freshPackage_FindType, freshType]
  | some p =>
    simp only [Option.getD_some, Option.some_bind']
    cases hft : p.FindType name.type with
    | none => simp [freshType]
    | some ty => simp

theorem prepEntry_id (t : ResourceTable) (name : ResourceName) :
    (prepEntry t name).id = t.entryIdAt name := by
  rw [prepEntry_eq]
  unfold ResourceTable.entryIdAt
  cases t.entryAt name <;> rfl

theorem entryAt_prepare (t : ResourceTable) (name n' : ResourceName) :
    (t.prepare name).1.entryAt n' =
      if n' = name then some ((t.entryAt name).getD (freshEntry name.entry))
      else t.entryAt n' := by
  by_cases hnn : n' = name
  · subst hnn
    rw [if_pos rfl, entryAt_eq, FindPackage_prepare, if_pos rfl]
    simp only [Option.some_bind']
    rw [FindType_prepPkg, if_pos rfl]
    simp only [Option.some_bind']
    rw [FindEntry_prepTy, if_pos rfl, prepEntry_eq]
  · rw [if_neg hnn, entryAt_eq, entryAt_eq, FindPackage_prepare]
    by_cases hp : n'.package = name.package
    · rw [if_pos hp]
      simp only [Option.some_bind']
      rw [FindType_prepPkg]
      by_cases ht : n'.type = name.type
      · rw [if_pos ht]
        simp only [Option.some_bind']
        rw [FindEntry_prepTy]
        have he : ¬(n'.entry = name.entry) := by
          intro hc
          apply hnn
          cases n'
          cases name
          simp_all
        rw [if_neg he, FindOrCreateType_snd, FindOrCreatePackage_snd, hp, ht]
        cases hfp : t.FindPackage name.package with
        | none => simp [freshPackage_FindType, freshType_FindEntry]
        | some p =>
          simp only [Option.getD_some, Option.some_bind']
          cases hft : p.FindType name.type with
          | none => simp [freshType_FindEntry]
          | some ty => simp
      · rw [if_neg ht, FindOrCreatePackage_snd, hp]
        cases hfp : t.FindPackage name.package with
        | none => simp [freshPackage_FindType]
        | some p => simp
    · rw [if_neg hp]

theorem valueAt_prepare (t : ResourceTable) (name n' : ResourceName)
    (c' : ConfigDescription) (p' : String) :
    (t.prepare name).1.valueAt n' c' p' = t.valueAt n' c' p' := by
  unfold ResourceTable.valueAt
  rw [entryAt_prepare]
  by_cases hnn : n' = name
  · subst hnn
    rw [if_pos rfl]
    cases t.entryAt n' with
    | none => simp [freshEntry_FindValue]
    | some e => simp
  · rw [if_neg hnn]

theorem entryIdAt_prepare (t : ResourceTable) (name n' : ResourceName) :
    (t.prepare name).1.entryIdAt n' = t.entryIdAt n' := by
  unfold ResourceTable.entryIdAt
  rw [entryAt_prepare]
  by_cases hnn : n' = name
  · subst hnn
    rw [if_pos rfl]
    cases t.entryAt n' with
    | none => simp [freshEntry]
    | some e => simp
  · rw [if_neg hnn]

theorem symbolAt_prepare (t : ResourceTable) (name n' : ResourceName) :
    (t.prepare name).1.symbolAt n' = t.symbolAt n' := by
  unfold ResourceTable.symbolAt
  rw [entryAt_prepare]
  by_cases hnn : n' = name
  · subst hnn
    rw [if_pos rfl]
    cases t.entryAt n' with
    | none => simp [freshEntry]
    | some e => simp
  · rw [if_neg hnn]

theorem packageIdAt_prepare (t : ResourceTable) (name : ResourceName) (m : String) :
    (t.prepare name).1.packageIdAt m = t.packageIdAt m := by
  unfold ResourceTable.packageIdAt
  rw [FindPackage_prepare]
  by_cases hm : m = name.package
  · subst hm
    rw [if_pos rfl]
    have hid := prepPkg_id t name
    unfold ResourceTable.packageIdAt at hid
    simp [hid]
  · rw [if_neg hm]

theorem typeIdAt_prepare (t : ResourceTable) (name : ResourceName) (m : String)
    (σ : ResourceType) :
    (t.prepare name).1.typeIdAt m σ = t.typeIdAt m σ := by
  unfold ResourceTable.typeIdAt
  rw [FindPackage_prepare]
  by_cases hm : m = name.package
  · subst hm
    rw [if_pos rfl]
    simp only [Option.some_bind']
    rw [FindType_prepPkg]
    by_cases hσ : σ = name.type
    · subst hσ
      rw [if_pos rfl]
      have hid := prepTy_id t name
      unfold ResourceTable.typeIdAt at hid
      simp [hid]
    · rw [if_neg hσ, FindOrCreatePackage_snd]
      cases hfp : t.FindPackage name.package with
      | none => simp [freshPackage_FindType]
      | some p => simp
  · rw [if_neg hm]

/-! ### Properties of the commit step -/
theorem commitEntryE_name (res_id : Option ResourceId) (e1 : ResourceEntry) :
    (commitEntryE res_id e1).name = e1.name := rfl

theorem commitEntryE_values (res_id : Option ResourceId) (e1 : ResourceEntry) :
    (commitEntryE res_id e1).values = e1.values := rfl

theorem commitEntryE_symbol (res_id : Option ResourceId) (e1 : ResourceEntry) :
    (commitEntryE res_id e1).symbol_status = e1.symbol_status := rfl

theorem commitEntryE_id (res_id : Option ResourceId) (e1 : ResourceEntry) :
    (commitEntryE res_id e1).id = mergeId (res_id.map ResourceId.entry_id) e1.id := rfl

theorem commitEntryE_FindValue (res_id : Option ResourceId) (e1 : ResourceEntry)
    (c : ConfigDescription) (prod : String) :
    (commitEntryE res_id e1).FindValue c prod = e1.FindValue c prod := rfl

theorem commitPkg_FindType (name : ResourceName) (res_id : Option ResourceId)
    (e1 : ResourceEntry) (p : ResourceTablePackage) (σ : ResourceType) :
    (commitPkg name res_id e1 p).FindType σ =
      (replaceTypeBy name.type (commitTy name res_id e1) p).FindType σ := rfl

theorem commitTy_FindEntry (name : ResourceName) (res_id : Option ResourceId)
    (e1 : ResourceEntry) (ty : ResourceTableType) (m : String) :
    (commitTy name res_id e1 ty).FindEntry m =
      (replaceEntryBy name.entry (fun _ => commitEntryE res_id e1) ty).FindEntry m := rfl

theorem entryAt_commitEntry (t : ResourceTable) (name n' : ResourceName)
    (res_id : Option ResourceId) (e1 : ResourceEntry) (he1 : e1.name = name.entry) :
    (t.commitEntry name res_id e1).entryAt n' =
      if n' = name then (t.entryAt name).map fun _ => commitEntryE res_id e1
      else t.entryAt n' := by
  have hfp : ∀ q, pkgNameMatches name.package q = true →
      (commitPkg name res_id e1 q).name = q.name := fun q _ => rfl
  have hft : ∀ q, typeTagMatches name.type q = true →
      (commitTy name res_id e1 q).type = q.type := fun q _ => rfl
  have hfe : ∀ q, entryNameMatches name.entry q = true →
      ((fun (_ : ResourceEntry) => commitEntryE res_id e1) q).name = q.name := by
    intro q hq
    have hqn : q.name = name.entry := by simpa [entryNameMatches] using hq
    show (commitEntryE res_id e1).name = q.name
    rw [commitEntryE_name, he1, hqn]
  by_cases hnn : n' = name
  · subst hnn
    rw [if_pos rfl, entryAt_eq, entryAt_eq]
    unfold ResourceTable.commitEntry
    rw [FindPackage_replacePackageBy _ _ _ _ hfp]
    cases hq : t.FindPackage n'.package with
    | none => simp
    | some q =>
      have htq : pkgNameMatches n'.package q = true := by
        simp [pkgNameMatches, FindPackage_name hq]
      simp only [Option.map_some', Option.some_bind']
      rw [if_pos htq, commitPkg_FindType, FindType_replaceTypeBy _ _ _ _ hft]
      cases hqt : q.FindType n'.type with
      | none => simp
      | some ty =>
        have htt : typeTagMatches n'.type ty = true := by
          simp [typeTagMatches, FindType_tag hqt]
        simp only [Option.map_some', Option.some_bind']
        rw [if_pos htt, commitTy_FindEntry, FindEntry_replaceEntryBy _ _ _ _ hfe]
        cases hqe : ty.FindEntry n'.entry with
        | none => simp
        | some e =>
          have hte : entryNameMatches n'.entry e = true := by
            simp [entryNameMatches, FindEntry_name hqe]
          simp only [Option.map_some']
          rw [if_pos hte]
  · rw [if_neg hnn, entryAt_eq, entryAt_eq]
    unfold ResourceTable.commitEntry
    rw [FindPackage_replacePackageBy _ _ _ _ hfp]
    by_cases hp : n'.package = name.package
    · cases hq : t.FindPackage n'.package with
      | none => simp
      | some q =>
        have htq : pkgNameMatches name.package q = true := by
          simp [pkgNameMatches, FindPackage_name hq, hp]
        simp only [Option.map_some', Option.some_bind']
        rw [if_pos htq, commitPkg_FindType, FindType_replaceTypeBy _ _ _ _ hft]
        by_cases ht : n'.type = name.type
        · cases hqt : q.FindType n'.type with
          | none => simp
          | some ty =>
            have htt : typeTagMatches name.type ty = true := by
              simp [typeTagMatches, FindType_tag hqt, ht]
            simp only [Option.map_some', Option.some_bind']
            rw [if_pos htt, commitTy_FindEntry, FindEntry_replaceEntryBy _ _ _ _ hfe]
            have he : ¬(n'.entry = name.entry) := by
              intro hc
              apply hnn
              cases n'
              cases name
              simp_all
            cases hqe : ty.FindEntry n'.entry with
            | none => simp
            | some e =>
              have hte : entryNameMatches name.entry e = false := by
                simp only [entryNameMatches, FindEntry_name hqe, decide_eq_false_iff_not]
                exact fun hc => he hc
              simp only [Option.map_some']
              rw [if_neg (by simp [hte])]
        · cases hqt : q.FindType n'.type with
          | none => simp
          | some ty =>
            have htt : typeTagMatches name.type ty = false := by
              simp only [typeTagMatches, FindType_tag hqt, decide_eq_false_iff_not]
              exact fun hc => ht hc
            simp only [Option.map_some', Option.some_bind']
            rw [if_neg (by simp [htt])]
    · cases hq : t.FindPackage n'.package with
      | none => simp
      | some q =>
        have htq : pkgNameMatches name.package q = false := by
          simp only [pkgNameMatches, FindPackage_name hq, decide_eq_false_iff_not]
          exact fun hc => hp hc
        simp only [Option.map_some']
        rw [if_neg (by simp [htq])]

/-! ### Branch analysis of AddResourceImpl -/
theorem entryAt_name {t : ResourceTable} {name : ResourceName} {e : ResourceEntry}
    (h : t.entryAt name = some e) : e.name = name.entry := by
  rw [entryAt_eq] at h
  rcases Option.bind_eq_some.mp h with ⟨ty, hty, hfe⟩
  exact FindEntry_name hfe

theorem FindOrCreateValue_found {e : ResourceEntry} {c : ConfigDescription} {prod : String}
    {s : ResourceConfigValue} (h : e.FindValue c prod = some s) :
    e.FindOrCreateValue c prod = (e, s) := by
  unfold ResourceEntry.FindOrCreateValue
  rw [h]

theorem valueAt_eq_some {t : ResourceTable} {name : ResourceName} {c : ConfigDescription}
    {prod : String} {v0 : Value} :
    t.valueAt name c prod = some v0 ↔
      ∃ e s, t.entryAt name = some e ∧ e.FindValue c prod = some s ∧ s.value = some v0 := by
  unfold ResourceTable.valueAt
  constructor
  · intro h
    rcases Option.bind_eq_some.mp h with ⟨e, he, h2⟩
    rcases Option.bind_eq_some.mp h2 with ⟨s, hs, hv⟩
    exact ⟨e, s, he, hs, hv⟩
  · rintro ⟨e, s, he, hs, hv⟩
    rw [he]
    simp only [Option.some_bind']
    rw [hs]
    simp only [Option.some_bind']
    exact hv

theorem AddResourceImpl_checksPass (t : ResourceTable) (name : ResourceName)
    (res_id : Option ResourceId) (config : ConfigDescription) (product : String)
    (v : Value) (validChars : List Char) (resolver : Value → Value → CollisionResult)
    (hv : validResourceEntryName validChars name.entry = true)
    (hpk : idCheck (t.packageIdAt name.package) (res_id.map ResourceId.package_id) = true)
    (hty : idCheck (t.typeIdAt name.package name.type) (res_id.map ResourceId.type_id) = true)
    (hen : idCheck (t.entryIdAt name) (res_id.map ResourceId.entry_id) = true) :
    t.AddResourceImpl name res_id config product v validChars resolver =
      addPlace (t.prepare name).1 name res_id config product v resolver (prepEntry t name) := by
  have h1 : idCheck (t.prepare name).2.1.id (res_id.map ResourceId.package_id) = true := by
    show idCheck (prepPkg t name).id _ = true
    rw [prepPkg_id]
    exact hpk
  have h2 : idCheck (t.prepare name).2.2.1.id (res_id.map ResourceId.type_id) = true := by
    show idCheck (prepTy t name).id _ = true
    rw [prepTy_id]
    exact hty
  have h3 : idCheck (t.prepare name).2.2.2.id (res_id.map ResourceId.entry_id) = true := by
    show idCheck (prepEntry t name).id _ = true
    rw [prepEntry_id]
    exact hen
  simp only [ResourceTable.AddResourceImpl]
  rw [if_pos hv, if_pos h1, if_pos h2, if_pos h3]
  rfl

theorem AddResourceImpl_failed_table (t : ResourceTable) (name : ResourceName)
    (res_id : Option ResourceId) (config : ConfigDescription) (product : String)
    (v : Value) (validChars : List Char) (resolver : Value → Value → CollisionResult)
    (hfail : (t.AddResourceImpl name res_id config product v validChars resolver).ok = false) :
    (t.AddResourceImpl name res_id config product v validChars resolver).table = t ∨
    (t.AddResourceImpl name res_id config product v validChars resolver).table =
      (t.prepare name).1 := by
  by_cases hv : validResourceEntryName validChars name.entry = true
  · simp only [ResourceTable.AddResourceImpl, if_pos hv] at hfail ⊢
    by_cases h1 : idCheck (t.prepare name).2.1.id (res_id.map ResourceId.package_id) = true
    · rw [if_pos h1] at hfail ⊢
      by_cases h2 : idCheck (t.prepare name).2.2.1.id (res_id.map ResourceId.type_id) = true
      · rw [if_pos h2] at hfail ⊢
        by_cases h3 : idCheck (t.prepare name).2.2.2.id (res_id.map ResourceId.entry_id) = true
        · rw [if_pos h3] at hfail ⊢
          cases hval : ((t.prepare name).2.2.2.FindOrCreateValue config product).2.value with
          | none => simp [addPlace, hval] at hfail
          | some ex =>
            cases hres : resolver ex v with
            | kKeepOriginal => simp [addPlace, hval, hres] at hfail
            | kTakeNew => simp [addPlace, hval, hres] at hfail
            | kConflict =>
              right
              simp [addPlace, hval, hres]
        · rw [if_neg h3]
          right
          rfl
      · rw [if_neg h2]
        right
        rfl
    · rw [if_neg h1]
      right
      rfl
  · simp only [ResourceTable.AddResourceImpl, if_neg hv]
    left
    trivial

theorem SetSymbolStateImpl_failed_table (t : ResourceTable) (name : ResourceName)
    (res_id : Option ResourceId) (symbol : Symbol) (validChars : List Char)
    (hfail : (t.SetSymbolStateImpl name res_id symbol validChars).ok = false) :
    (t.SetSymbolStateImpl name res_id symbol validChars).table = t ∨
    (t.SetSymbolStateImpl name res_id symbol validChars).table = (t.prepare name).1 := by
  by_cases hv : validResourceEntryName validChars name.entry = true
  · simp only [ResourceTable.SetSymbolStateImpl, if_pos hv] at hfail ⊢
    by_cases h1 : idCheck (t.prepare name).2.1.id (res_id.map ResourceId.package_id) = true
    · rw [if_pos h1] at hfail ⊢
      by_cases h2 : idCheck (t.prepare name).2.2.1.id (res_id.map ResourceId.type_id) = true
      · rw [if_pos h2] at hfail ⊢
        by_cases h3 : idCheck (t.prepare name).2.2.2.id (res_id.map ResourceId.entry_id) = true
        · rw [if_pos h3] at hfail
          simp at hfail
        · rw [if_neg h3]
          right
          rfl
      · rw [if_neg h2]
        right
        rfl
    · rw [if_neg h1]
      right
      rfl
  · simp only [ResourceTable.SetSymbolStateImpl, if_neg hv]
    left
    trivial

/-- C2: a failed add is atomic: no value appears, disappears or changes at
any (name, configuration, product) key, no entry id, symbol state, package
id or type id changes; the only mutation a failed call may perform is the
creation of empty ancestor Package/Type/Entry nodes, which none of these
observations can see. -/
theorem C2_failed_add_no_mutation (t : ResourceTable) (name : ResourceName)
    (res_id : Option ResourceId) (config : ConfigDescription) (product : String)
    (v : Value) (validChars : List Char) (resolver : Value → Value → CollisionResult)
    (hfail : (t.AddResourceImpl name res_id config product v validChars resolver).ok = false)
    (n' : ResourceName) (c' : ConfigDescription) (p' : String) :
    (t.AddResourceImpl name res_id config product v validChars resolver).table.valueAt n' c' p' =
      t.valueAt n' c' p' ∧
    (t.AddResourceImpl name res_id config product v validChars resolver).table.entryIdAt n' =
      t.entryIdAt n' ∧
    (t.AddResourceImpl name res_id config product v validChars resolver).table.symbolAt n' =
      t.symbolAt n' ∧
    (t.AddResourceImpl name res_id config product v validChars resolver).table.packageIdAt
      n'.package = t.packageIdAt n'.package ∧
    (t.AddResourceImpl name res_id config product v validChars resolver).table.typeIdAt
      n'.package n'.type = t.typeIdAt n'.package n'.type := by
  rcases AddResourceImpl_failed_table t name res_id config product v validChars resolver hfail
    with h | h <;> rw [h]
  · exact ⟨rfl, rfl, rfl, rfl, rfl⟩
  · exact ⟨valueAt_prepare t name n' c' p', entryIdAt_prepare t name n',
      symbolAt_prepare t name n', packageIdAt_prepare t name n'.package,
      typeIdAt_prepare t name n'.package n'.type⟩

/-- Closed instance of `C2_failed_add_no_mutation`: adding under an invalid
entry name fails and observably changes nothing. -/
theorem C2_failed_add_no_mutation_witness :
    (({} : ResourceTable).AddResourceImpl ⟨"", 0, "bad name"⟩ none "cfg" ""
        ⟨0, false, 0, "x"⟩ resourceValidChars ResolveValueCollision).ok = false ∧
    (({} : ResourceTable).AddResourceImpl ⟨"", 0, "bad name"⟩ none "cfg" ""
        ⟨0, false, 0, "x"⟩ resourceValidChars ResolveValueCollision).table.valueAt
      ⟨"", 0, "bad name"⟩ "cfg" "" = ({} : ResourceTable).valueAt ⟨"", 0, "bad name"⟩ "cfg" "" :=
  ⟨by decide,
   (C2_failed_add_no_mutation ({} : ResourceTable) ⟨"", 0, "bad name"⟩ none "cfg" ""
      ⟨0, false, 0, "x"⟩ resourceValidChars ResolveValueCollision (by decide)
      ⟨"", 0, "bad name"⟩ "cfg" "").1⟩

/-! ### The collision path and the fresh-key path -/
theorem FindOrCreateValue_snd_key (e : ResourceEntry) (c : ConfigDescription) (prod : String) :
    slotKeyMatches c prod (e.FindOrCreateValue c prod).2 = true := by
  rw [FindOrCreateValue_snd]
  cases hs : e.FindValue c prod with
  | none => simp [slotKeyMatches]
  | some s =>
    rcases FindValue_key hs with ⟨h1, h2⟩
    simp [slotKeyMatches, h1, h2]

theorem FindValue_setValueAt_ne (e : ResourceEntry) (c : ConfigDescription) (prod : String)
    (v : Value) (c' : ConfigDescription) (p' : String) (hk : ¬(c' = c ∧ p' = prod)) :
    (e.setValueAt c prod v).FindValue c' p' = e.FindValue c' p' := by
  rw [FindValue_setValueAt]
  cases hs : e.FindValue c' p' with
  | none => rfl
  | some s =>
    rcases FindValue_key hs with ⟨h1, h2⟩
    have hfalse : slotKeyMatches c prod s = false := by
      simp only [slotKeyMatches, h1, h2, Bool.and_eq_false_iff, decide_eq_false_iff_not]
      by_cases hc : c' = c
      · right
        exact fun hp => hk ⟨hc, hp⟩
      · left
        exact hc
    simp [hfalse]

theorem prepEntry_slot_none (t : ResourceTable) (name : ResourceName)
    (config : ConfigDescription) (product : String)
    (hfresh : t.valueAt name config product = none) :
    ((prepEntry t name).FindOrCreateValue config product).2.value = none := by
  rw [FindOrCreateValue_snd, prepEntry_eq]
  cases he : t.entryAt name with
  | none => simp [freshEntry_FindValue]
  | some e =>
    simp only [Option.getD_some]
    cases hs : e.FindValue config product with
    | none => simp
    | some s =>
      unfold ResourceTable.valueAt at hfresh
      rw [he] at hfresh
      simp only [Option.some_bind'] at hfresh
      rw [hs] at hfresh
      simp only [Option.some_bind'] at hfresh
      simpa using hfresh

/-- C1: when the (configuration, product) key already holds a value, the
collision resolver decides the outcome, which is exactly one of:
KeepOriginal — the incoming value is discarded and the call succeeds;
TakeNew — the incoming value replaces the existing one and the call
succeeds; Conflict — the call fails and the diagnostic reports both source
locations.  Stated for `AddResourceImpl` with an arbitrary resolver, which
covers both public `AddResource` overloads. -/
theorem C1_collision_resolver_decides (t : ResourceTable) (name : ResourceName)
    (res_id : Option ResourceId) (config : ConfigDescription) (product : String)
    (v0 v : Value) (validChars : List Char) (resolver : Value → Value → CollisionResult)
    (hname : validResourceEntryName validChars name.entry = true)
    (hpk : idCheck (t.packageIdAt name.package) (res_id.map ResourceId.package_id) = true)
    (hty : idCheck (t.typeIdAt name.package name.type) (res_id.map ResourceId.type_id) = true)
    (hen : idCheck (t.entryIdAt name) (res_id.map ResourceId.entry_id) = true)
    (hslot : t.valueAt name config product = some v0) :
    (resolver v0 v = .kKeepOriginal →
      (t.AddResourceImpl name res_id config product v validChars resolver).ok = true ∧
      (t.AddResourceImpl name res_id config product v validChars
        resolver).table.valueAt name config product = some v0) ∧
    (resolver v0 v = .kTakeNew →
      (t.AddResourceImpl name res_id config product v validChars resolver).ok = true ∧
      (t.AddResourceImpl name res_id config product v validChars
        resolver).table.valueAt name config product = some v) ∧
    (resolver v0 v = .kConflict →
      (t.AddResourceImpl name res_id config product v validChars resolver).ok = false ∧
      (t.AddResourceImpl name res_id config product v validChars resolver).diags =
        [DiagMessage.valueConflict v0.source v.source] ∧
      (t.AddResourceImpl name res_id config product v validChars
        resolver).table.valueAt name config product = some v0) := by
  rw [AddResourceImpl_checksPass t name res_id config product v validChars resolver
    hname hpk hty hen]
  obtain ⟨e, s, he, hs, hsv⟩ := valueAt_eq_some.mp hslot
  have hpe : prepEntry t name = e := by
    rw [prepEntry_eq, he]
    rfl
  rw [hpe]
  refine ⟨?_, ?_, ?_⟩ <;> intro hres <;>
    simp only [addPlace, FindOrCreateValue_found hs, hsv, hres]
  · refine ⟨trivial, ?_⟩
    unfold ResourceTable.valueAt
    rw [entryAt_commitEntry _ name name res_id e (entryAt_name he), if_pos rfl,
      entryAt_prepare, if_pos rfl, he]
    simp only [Option.getD_some, Option.map_some', Option.some_bind']
    rw [commitEntryE_FindValue, hs]
    simp only [Option.some_bind']
    exact hsv
  · refine ⟨trivial, ?_⟩
    unfold ResourceTable.valueAt
    rw [entryAt_commitEntry _ name name res_id (e.setValueAt config product v)
      (by rw [setValueAt_name]; exact entryAt_name he), if_pos rfl,
      entryAt_prepare, if_pos rfl, he]
    simp only [Option.getD_some, Option.map_some', Option.some_bind']
    rw [commitEntryE_FindValue, FindValue_setValueAt, hs]
    have hkey : slotKeyMatches config product s = true := List.find?_some hs
    simp only [Option.map_some']
    rw [if_pos hkey]
    simp
  · refine ⟨trivial, trivial, ?_⟩
    rw [valueAt_prepare]
    exact hslot

/-- Closed instance of `C1_collision_resolver_decides`: redeclaring with an
incompatible kind under the default resolver is a conflict that reports
both source locations and keeps the original value. -/
theorem C1_collision_resolver_decides_witness :
    ((⟨{}, [⟨none, "p", [⟨3, none, {}, [⟨"e", none, {},
          [⟨"cfg", "", some ⟨0, false, 5, "old"⟩⟩]⟩]⟩]⟩]⟩ :
        ResourceTable).AddResourceImpl ⟨"p", 3, "e"⟩ none "cfg" "" ⟨1, false, 9, "new"⟩
      resourceValidChars ResolveValueCollision).ok = false ∧
    ((⟨{}, [⟨none, "p", [⟨3, none, {}, [⟨"e", none, {},
          [⟨"cfg", "", some ⟨0, false, 5, "old"⟩⟩]⟩]⟩]⟩]⟩ :
        ResourceTable).AddResourceImpl ⟨"p", 3, "e"⟩ none "cfg" "" ⟨1, false, 9, "new"⟩
      resourceValidChars ResolveValueCollision).diags = [DiagMessage.valueConflict 5 9] ∧
    ((⟨{}, [⟨none, "p", [⟨3, none, {}, [⟨"e", none, {},
          [⟨"cfg", "", some ⟨0, false, 5, "old"⟩⟩]⟩]⟩]⟩]⟩ :
        ResourceTable).AddResourceImpl ⟨"p", 3, "e"⟩ none "cfg" "" ⟨1, false, 9, "new"⟩
      resourceValidChars ResolveValueCollision).table.valueAt ⟨"p", 3, "e"⟩ "cfg" "" =
      some ⟨0, false, 5, "old"⟩ :=
  (C1_collision_resolver_decides
    (⟨{}, [⟨none, "p", [⟨3, none, {}, [⟨"e", none, {},
        [⟨"cfg", "", some ⟨0, false, 5, "old"⟩⟩]⟩]⟩]⟩]⟩ : ResourceTable)
    ⟨"p", 3, "e"⟩ none "cfg" "" ⟨0, false, 5, "old"⟩ ⟨1, false, 9, "new"⟩
    resourceValidChars ResolveValueCollision
    (by decide) (by decide) (by decide) (by decide) (by decide)).2.2 (by decide)

theorem AddResourceImpl_fresh_key (t : ResourceTable) (name : ResourceName)
    (res_id : Option ResourceId) (config : ConfigDescription) (product : String)
    (v : Value) (validChars : List Char) (resolver : Value → Value → CollisionResult)
    (hname : validResourceEntryName validChars name.entry = true)
    (hpk : idCheck (t.packageIdAt name.package) (res_id.map ResourceId.package_id) = true)
    (hty : idCheck (t.typeIdAt name.package name.type) (res_id.map ResourceId.type_id) = true)
    (hen : idCheck (t.entryIdAt name) (res_id.map ResourceId.entry_id) = true)
    (hfresh : t.valueAt name config product = none) :
    (t.AddResourceImpl name res_id config product v validChars resolver).ok = true ∧
    (t.AddResourceImpl name res_id config product v validChars resolver).diags = [] ∧
    (t.AddResourceImpl name res_id config product v validChars resolver).table.valueAt
      name config product = some v ∧
    (∀ c' p', ¬(c' = config ∧ p' = product) →
      (t.AddResourceImpl name res_id config product v validChars resolver).table.valueAt
        name c' p' = t.valueAt name c' p') ∧
    (∀ n', ¬(n' = name) →
      (t.AddResourceImpl name res_id config product v validChars resolver).table.entryAt n' =
        t.entryAt n') ∧
    (t.AddResourceImpl name res_id config product v validChars resolver).table.entryIdAt name =
      mergeId (res_id.map ResourceId.entry_id) (t.entryIdAt name) ∧
    (∀ resolver2, t.AddResourceImpl name res_id config product v validChars resolver2 =
      t.AddResourceImpl name res_id config product v validChars resolver) := by
  have hnone := prepEntry_slot_none t name config product hfresh
  have hsame : ∀ r2 : Value → Value → CollisionResult,
      t.AddResourceImpl name res_id config product v validChars r2 =
        addPlace (t.prepare name).1 name res_id config product v r2 (prepEntry t name) :=
    fun r2 => AddResourceImpl_checksPass t name res_id config product v validChars r2
      hname hpk hty hen
  have hplace : ∀ r2 : Value → Value → CollisionResult,
      addPlace (t.prepare name).1 name res_id config product v r2 (prepEntry t name) =
        ⟨(t.prepare name).1.commitEntry name res_id
          (((prepEntry t name).FindOrCreateValue config product).1.setValueAt config product v),
          true, []⟩ := by
    intro r2
    simp only [addPlace, hnone]
  have he1 : (((prepEntry t name).FindOrCreateValue config product).1.setValueAt
      config product v).name = name.entry := by
    rw [setValueAt_name, FindOrCreateValue_fst_name, prepEntry_name]
  have hE : (t.prepare name).1.entryAt name =
      some ((t.entryAt name).getD (freshEntry name.entry)) := by
    rw [entryAt_prepare, if_pos rfl]
  rw [hsame resolver, hplace resolver]
  refine ⟨rfl, rfl, ?_, ?_, ?_, ?_, ?_⟩
  · unfold ResourceTable.valueAt
    rw [entryAt_commitEntry _ name name res_id _ he1, if_pos rfl, hE]
    simp only [Option.map_some', Option.some_bind']
    rw [commitEntryE_FindValue, FindValue_setValueAt, FindValue_FindOrCreateValue_self]
    simp only [Option.map_some']
    rw [if_pos (FindOrCreateValue_snd_key _ config product)]
    simp
  · intro c' p' hk
    unfold ResourceTable.valueAt
    rw [entryAt_commitEntry _ name name res_id _ he1, if_pos rfl, hE]
    simp only [Option.map_some', Option.some_bind']
    rw [commitEntryE_FindValue, FindValue_setValueAt_ne _ _ _ _ _ _ hk,
      FindValue_FindOrCreateValue_frame _ hk, prepEntry_eq]
    cases he : t.entryAt name with
    | none => simp [freshEntry_FindValue]
    | some e => simp
  · intro n' hnn
    rw [entryAt_commitEntry _ name n' res_id _ he1, if_neg hnn, entryAt_prepare, if_neg hnn]
  · unfold ResourceTable.entryIdAt
    rw [entryAt_commitEntry _ name name res_id _ he1, if_pos rfl, hE]
    simp only [Option.map_some', Option.some_bind']
    rw [commitEntryE_id, setValueAt_id, FindOrCreateValue_fst_id, prepEntry_id]
    rfl
  · intro r2
    rw [hsame r2, hplace r2]

/-- C3: when a numeric id is supplied (here with agreeing package and type
parts), the entry-id rule holds: if the Entry already has a different id
the call fails with an id-conflict diagnostic and the id is unchanged; if
the ids agree the call succeeds; if the Entry has no id yet the supplied id
is recorded.  The success cases are stated for a placement that does not
itself collide (no value at the key yet). -/
theorem C3_entry_id_agreement (t : ResourceTable) (name : ResourceName) (rid : ResourceId)
    (config : ConfigDescription) (product : String) (v : Value) (validChars : List Char)
    (resolver : Value → Value → CollisionResult)
    (hname : validResourceEntryName validChars name.entry = true)
    (hpk : idCheck (t.packageIdAt name.package) (some rid.package_id) = true)
    (hty : idCheck (t.typeIdAt name.package name.type) (some rid.type_id) = true) :
    (∀ e0, t.entryIdAt name = some e0 → ¬(e0 = rid.entry_id) →
      (t.AddResourceImpl name (some rid) config product v validChars resolver).ok = false ∧
      (t.AddResourceImpl name (some rid) config product v validChars resolver).diags =
        [DiagMessage.idConflict e0 rid.entry_id] ∧
      (t.AddResourceImpl name (some rid) config product v validChars resolver).table.entryIdAt
        name = some e0) ∧
    (t.valueAt name config product = none → t.entryIdAt name = some rid.entry_id →
      (t.AddResourceImpl name (some rid) config product v validChars resolver).ok = true ∧
      (t.AddResourceImpl name (some rid) config product v validChars resolver).table.entryIdAt
        name = some rid.entry_id) ∧
    (t.valueAt name config product = none → t.entryIdAt name = none →
      (t.AddResourceImpl name (some rid) config product v validChars resolver).ok = true ∧
      (t.AddResourceImpl name (some rid) config product v validChars resolver).table.entryIdAt
        name = some rid.entry_id) := by
  have h1 : idCheck (t.prepare name).2.1.id ((some rid).map ResourceId.package_id) = true := by
    show idCheck (prepPkg t name).id _ = true
    rw [prepPkg_id]
    exact hpk
  have h2 : idCheck (t.prepare name).2.2.1.id ((some rid).map ResourceId.type_id) = true := by
    show idCheck (prepTy t name).id _ = true
    rw [prepTy_id]
    exact hty
  refine ⟨?_, ?_, ?_⟩
  · intro e0 he0 hne
    have hpe : (t.prepare name).2.2.2.id = some e0 := by
      show (prepEntry t name).id = some e0
      rw [prepEntry_id]
      exact he0
    have h3 : ¬(idCheck (t.prepare name).2.2.2.id ((some rid).map ResourceId.entry_id) = true) := by
      rw [hpe]
      simp only [idCheck, Option.map_some', decide_eq_true_eq]
      exact hne
    simp only [ResourceTable.AddResourceImpl]
    rw [if_pos hname, if_pos h1, if_pos h2, if_neg h3]
    refine ⟨rfl, ?_, ?_⟩
    · rw [hpe]
      rfl
    · show (t.prepare name).1.entryIdAt name = some e0
      rw [entryIdAt_prepare]
      exact he0
  · intro hfresh he0
    have hen : idCheck (t.entryIdAt name) ((some rid).map ResourceId.entry_id) = true := by
      rw [he0]
      simp [idCheck]
    have hk := AddResourceImpl_fresh_key t name (some rid) config product v validChars
      resolver hname hpk hty hen hfresh
    refine ⟨hk.1, ?_⟩
    rw [hk.2.2.2.2.2.1, he0]
    rfl
  · intro hfresh he0
    have hen : idCheck (t.entryIdAt name) ((some rid).map ResourceId.entry_id) = true := by
      rw [he0]
      rfl
    have hk := AddResourceImpl_fresh_key t name (some rid) config product v validChars
      resolver hname hpk hty hen hfresh
    refine ⟨hk.1, ?_⟩
    rw [hk.2.2.2.2.2.1, he0]
    rfl

/-- Closed instance of `C3_entry_id_agreement`: an entry recorded with id 7
rejects a supplied id 8, keeps 7, and reports both ids. -/
theorem C3_entry_id_agreement_witness :
    ((⟨{}, [⟨none, "p", [⟨3, none, {}, [⟨"e", some 7, {}, []⟩]⟩]⟩]⟩ :
        ResourceTable).AddResourceImpl ⟨"p", 3, "e"⟩ (some ⟨1, 2, 8⟩) "cfg" ""
      ⟨0, false, 0, "x"⟩ resourceValidChars ResolveValueCollision).ok = false ∧
    ((⟨{}, [⟨none, "p", [⟨3, none, {}, [⟨"e", some 7, {}, []⟩]⟩]⟩]⟩ :
        ResourceTable).AddResourceImpl ⟨"p", 3, "e"⟩ (some ⟨1, 2, 8⟩) "cfg" ""
      ⟨0, false, 0, "x"⟩ resourceValidChars ResolveValueCollision).diags =
      [DiagMessage.idConflict 7 8] ∧
    ((⟨{}, [⟨none, "p", [⟨3, none, {}, [⟨"e", some 7, {}, []⟩]⟩]⟩]⟩ :
        ResourceTable).AddResourceImpl ⟨"p", 3, "e"⟩ (some ⟨1, 2, 8⟩) "cfg" ""
      ⟨0, false, 0, "x"⟩ resourceValidChars ResolveValueCollision).table.entryIdAt
      ⟨"p", 3, "e"⟩ = some 7 :=
  (C3_entry_id_agreement
    (⟨{}, [⟨none, "p", [⟨3, none, {}, [⟨"e", some 7, {}, []⟩]⟩]⟩]⟩ : ResourceTable)
    ⟨"p", 3, "e"⟩ ⟨1, 2, 8⟩ "cfg" "" ⟨0, false, 0, "x"⟩ resourceValidChars
    ResolveValueCollision (by decide) (by decide) (by decide)).1 7 (by decide) (by decide)

/-! ### Key uniqueness -/
theorem idCheck_none (x : Option Nat) : idCheck x none = true := by
  cases x <;> rfl

theorem KeysUnique_freshEntry (n : String) : (freshEntry n).KeysUnique :=
  List.Pairwise.nil

theorem KeysUnique_FindOrCreateValue {e : ResourceEntry} (c : ConfigDescription)
    (prod : String) (h : e.KeysUnique) : (e.FindOrCreateValue c prod).1.KeysUnique := by
  unfold ResourceEntry.FindOrCreateValue
  cases hfv : e.FindValue c prod with
  | some s => exact h
  | none =>
    show (e.values ++ [(⟨c, prod, none⟩ : ResourceConfigValue)]).Pairwise _
    rw [List.pairwise_append]
    refine ⟨h, List.pairwise_singleton _ _, ?_⟩
    intro a ha b hb
    rcases List.mem_singleton.mp hb with rfl
    have hfa : slotKeyMatches c prod a = false :=
      bool_eq_false_of_not (List.find?_eq_none.mp hfv a ha)
    simp only [slotKeyMatches, Bool.and_eq_false_iff, decide_eq_false_iff_not] at hfa
    intro hc
    rcases hfa with hfa | hfa
    · exact hfa hc.1
    · exact hfa hc.2

theorem KeysUnique_setValueAt {e : ResourceEntry} (c : ConfigDescription) (prod : String)
    (v : Value) (h : e.KeysUnique) : (e.setValueAt c prod v).KeysUnique := by
  show ((e.values.map _).Pairwise _)
  rw [List.pairwise_map]
  refine h.imp ?_
  intro a b hab
  by_cases ha : slotKeyMatches c prod a = true <;>
    by_cases hb : slotKeyMatches c prod b = true <;>
      simp [ha, hb] <;> exact fun h1 h2 => hab ⟨h1, h2⟩

theorem KeysUnique_prepBase (t : ResourceTable) (name : ResourceName)
    (h : t.KeysUnique) : ((t.entryAt name).getD (freshEntry name.entry)).KeysUnique := by
  cases he : t.entryAt name with
  | none => exact KeysUnique_freshEntry name.entry
  | some e => exact h name e he

theorem AddResourceImpl_table_cases (t : ResourceTable) (name : ResourceName)
    (res_id : Option ResourceId) (config : ConfigDescription) (product : String)
    (v : Value) (validChars : List Char) (resolver : Value → Value → CollisionResult) :
    (t.AddResourceImpl name res_id config product v validChars resolver).table = t ∨
    (t.AddResourceImpl name res_id config product v validChars resolver).table =
      (t.prepare name).1 ∨
    (t.AddResourceImpl name res_id config product v validChars resolver).table =
      (t.prepare name).1.commitEntry name res_id
        ((prepEntry t name).FindOrCreateValue config product).1 ∨
    (t.AddResourceImpl name res_id config product v validChars resolver).table =
      (t.prepare name).1.commitEntry name res_id
        (((prepEntry t name).FindOrCreateValue config product).1.setValueAt
          config product v) := by
  by_cases hv : validResourceEntryName validChars name.entry = true
  · simp only [ResourceTable.AddResourceImpl, if_pos hv]
    by_cases h1 : idCheck (t.prepare name).2.1.id (res_id.map ResourceId.package_id) = true
    · rw [if_pos h1]
      by_cases h2 : idCheck (t.prepare name).2.2.1.id (res_id.map ResourceId.type_id) = true
      · rw [if_pos h2]
        by_cases h3 : idCheck (t.prepare name).2.2.2.id (res_id.map ResourceId.entry_id) = true
        · rw [if_pos h3]
          cases hval : ((t.prepare name).2.2.2.FindOrCreateValue config product).2.value with
          | none =>
            right; right; right
            simp only [addPlace, hval]
            rfl
          | some ex =>
            cases hres : resolver ex v with
            | kKeepOriginal =>
              right; right; left
              simp only [addPlace, hval, hres]
              rfl
            | kTakeNew =>
              right; right; right
              simp only [addPlace, hval, hres]
              rfl
            | kConflict =>
              right; left
              simp only [addPlace, hval, hres]
        · rw [if_neg h3]
          right; left
          rfl
      · rw [if_neg h2]
        right; left
        rfl
    · rw [if_neg h1]
      right; left
      rfl
  · simp only [ResourceTable.AddResourceImpl, if_neg hv]
    left
    trivial

theorem KeysUnique_prepare (t : ResourceTable) (name : ResourceName)
    (h : t.KeysUnique) : (t.prepare name).1.KeysUnique := by
  intro n' e he
  rw [entryAt_prepare] at he
  by_cases hnn : n' = name
  · rw [if_pos hnn] at he
    injection he with he
    rw [← he]
    exact KeysUnique_prepBase t name h
  · rw [if_neg hnn] at he
    exact h n' e he

theorem KeysUnique_commit (t : ResourceTable) (name : ResourceName)
    (res_id : Option ResourceId) (e1 : ResourceEntry) (he1 : e1.name = name.entry)
    (hKU : t.KeysUnique) (hKU1 : e1.KeysUnique) :
    (t.commitEntry name res_id e1).KeysUnique := by
  intro n' e he
  rw [entryAt_commitEntry t name n' res_id e1 he1] at he
  by_cases hnn : n' = name
  · rw [if_pos hnn] at he
    cases hta : t.entryAt name with
    | none => rw [hta] at he; exact absurd he (by simp)
    | some e0 =>
      rw [hta] at he
      simp only [Option.map_some', Option.some.injEq] at he
      rw [← he]
      show (commitEntryE res_id e1).values.Pairwise _
      rw [commitEntryE_values]
      exact hKU1
  · rw [if_neg hnn] at he
    exact hKU n' e he

/-- C4: (configuration, product) is a uniqueness key.  First: every add
preserves the at-most-one-live-slot-per-key invariant of every entry.
Second: two adds for the same name under distinct keys both succeed, never
consult the collision resolver (each call's result is the same for every
resolver), and afterwards both values coexist in the entry. -/
theorem C4_key_uniqueness_and_isolation (t : ResourceTable) (name : ResourceName)
    (res_id : Option ResourceId) (config : ConfigDescription) (product : String)
    (v : Value) (validChars : List Char) (resolver : Value → Value → CollisionResult)
    (c1 c2 : ConfigDescription) (p1 p2 : String) (v1 v2 : Value) :
    (t.KeysUnique →
      (t.AddResourceImpl name res_id config product v validChars resolver).table.KeysUnique) ∧
    (validResourceEntryName validChars name.entry = true →
      t.valueAt name c1 p1 = none → t.valueAt name c2 p2 = none →
      ¬(c2 = c1 ∧ p2 = p1) →
      (t.AddResourceImpl name none c1 p1 v1 validChars resolver).ok = true ∧
      ((t.AddResourceImpl name none c1 p1 v1 validChars resolver).table.AddResourceImpl
        name none c2 p2 v2 validChars resolver).ok = true ∧
      ((t.AddResourceImpl name none c1 p1 v1 validChars resolver).table.AddResourceImpl
        name none c2 p2 v2 validChars resolver).table.valueAt name c1 p1 = some v1 ∧
      ((t.AddResourceImpl name none c1 p1 v1 validChars resolver).table.AddResourceImpl
        name none c2 p2 v2 validChars resolver).table.valueAt name c2 p2 = some v2 ∧
      (∀ rA, t.AddResourceImpl name none c1 p1 v1 validChars rA =
        t.AddResourceImpl name none c1 p1 v1 validChars resolver) ∧
      (∀ rB, (t.AddResourceImpl name none c1 p1 v1 validChars resolver).table.AddResourceImpl
          name none c2 p2 v2 validChars rB =
        (t.AddResourceImpl name none c1 p1 v1 validChars resolver).table.AddResourceImpl
          name none c2 p2 v2 validChars resolver)) := by
  refine ⟨?_, ?_⟩
  · intro hKU
    rcases AddResourceImpl_table_cases t name res_id config product v validChars resolver
      with h | h | h | h <;> rw [h]
    · exact hKU
    · exact KeysUnique_prepare t name hKU
    · refine KeysUnique_commit _ name res_id _ ?_ (KeysUnique_prepare t name hKU) ?_
      · rw [FindOrCreateValue_fst_name, prepEntry_name]
      · refine KeysUnique_FindOrCreateValue config product ?_
        rw [prepEntry_eq]
        exact KeysUnique_prepBase t name hKU
    · refine KeysUnique_commit _ name res_id _ ?_ (KeysUnique_prepare t name hKU) ?_
      · rw [setValueAt_name, FindOrCreateValue_fst_name, prepEntry_name]
      · refine KeysUnique_setValueAt config product v ?_
        refine KeysUnique_FindOrCreateValue config product ?_
        rw [prepEntry_eq]
        exact KeysUnique_prepBase t name hKU
  · intro hname hf1 hf2 hk
    have hA := AddResourceImpl_fresh_key t name none c1 p1 v1 validChars resolver hname
      (idCheck_none _) (idCheck_none _) (idCheck_none _) hf1
    have hf2' : (t.AddResourceImpl name none c1 p1 v1 validChars resolver).table.valueAt
        name c2 p2 = none := by
      rw [hA.2.2.2.1 c2 p2 hk]
      exact hf2
    have hB := AddResourceImpl_fresh_key
      (t.AddResourceImpl name none c1 p1 v1 validChars resolver).table name none c2 p2 v2
      validChars resolver hname (idCheck_none _) (idCheck_none _) (idCheck_none _) hf2'
    have hk' : ¬(c1 = c2 ∧ p1 = p2) := fun hc => hk ⟨hc.1.symm, hc.2.symm⟩
    refine ⟨hA.1, hB.1, ?_, hB.2.2.1, hA.2.2.2.2.2.2, hB.2.2.2.2.2.2⟩
    rw [hB.2.2.2.1 c1 p1 hk']
    exact hA.2.2.1

/-- Closed instance of `C4_key_uniqueness_and_isolation`: adding "Hello"
under the default configuration and "Bonjour" under "fr" for the same name
succeeds twice and both values coexist. -/
theorem C4_key_uniqueness_and_isolation_witness :
    ((({} : ResourceTable).AddResourceImpl ⟨"app", 3, "app_name"⟩ none "default" ""
        ⟨0, false, 1, "Hello"⟩ resourceValidChars ResolveValueCollision).table.AddResourceImpl
      ⟨"app", 3, "app_name"⟩ none "fr" "" ⟨0, false, 2, "Bonjour"⟩ resourceValidChars
      ResolveValueCollision).table.valueAt ⟨"app", 3, "app_name"⟩ "default" "" =
      some ⟨0, false, 1, "Hello"⟩ ∧
    ((({} : ResourceTable).AddResourceImpl ⟨"app", 3, "app_name"⟩ none "default" ""
        ⟨0, false, 1, "Hello"⟩ resourceValidChars ResolveValueCollision).table.AddResourceImpl
      ⟨"app", 3, "app_name"⟩ none "fr" "" ⟨0, false, 2, "Bonjour"⟩ resourceValidChars
      ResolveValueCollision).table.valueAt ⟨"app", 3, "app_name"⟩ "fr" "" =
      some ⟨0, false, 2, "Bonjour"⟩ :=
  ⟨((C4_key_uniqueness_and_isolation ({} : ResourceTable) ⟨"app", 3, "app_name"⟩ none
      "default" "" ⟨0, false, 1, "Hello"⟩ resourceValidChars ResolveValueCollision
      "default" "fr" "" "" ⟨0, false, 1, "Hello"⟩ ⟨0, false, 2, "Bonjour"⟩).2
    (by decide) (by decide) (by decide) (by decide)).2.2.1,
   ((C4_key_uniqueness_and_isolation ({} : ResourceTable) ⟨"app", 3, "app_name"⟩ none
      "default" "" ⟨0, false, 1, "Hello"⟩ resourceValidChars ResolveValueCollision
      "default" "fr" "" "" ⟨0, false, 1, "Hello"⟩ ⟨0, false, 2, "Bonjour"⟩).2
    (by decide) (by decide) (by decide) (by decide)).2.2.2.1⟩

/-! ### Idempotence of the find-or-create operations -/
theorem FindOrCreatePackage_found {t : ResourceTable} {n : String}
    {p : ResourceTablePackage} (h : t.FindPackage n = some p) :
    t.FindOrCreatePackage n = (t, p) := by
  unfold ResourceTable.FindOrCreatePackage
  rw [h]

theorem FindOrCreateType_found {p : ResourceTablePackage} {τ : ResourceType}
    {ty : ResourceTableType} (h : p.FindType τ = some ty) :
    p.FindOrCreateType τ = (p, ty) := by
  unfold ResourceTablePackage.FindOrCreateType
  rw [h]

theorem FindOrCreateEntry_found {ty : ResourceTableType} {n : String}
    {e : ResourceEntry} (h : ty.FindEntry n = some e) :
    ty.FindOrCreateEntry n = (ty, e) := by
  unfold ResourceTableType.FindOrCreateEntry
  rw [h]

theorem FindOrCreatePackage_idem (t : ResourceTable) (n : String) :
    (t.FindOrCreatePackage n).1.FindOrCreatePackage n = t.FindOrCreatePackage n := by
  rw [FindOrCreatePackage_found (FindPackage_FindOrCreatePackage_self t n)]

theorem FindOrCreateType_idem (p : ResourceTablePackage) (τ : ResourceType) :
    (p.FindOrCreateType τ).1.FindOrCreateType τ = p.FindOrCreateType τ := by
  rw [FindOrCreateType_found (FindType_FindOrCreateType_self p τ)]

theorem FindOrCreateEntry_idem (ty : ResourceTableType) (n : String) :
    (ty.FindOrCreateEntry n).1.FindOrCreateEntry n = ty.FindOrCreateEntry n := by
  rw [FindOrCreateEntry_found (FindEntry_FindOrCreateEntry_self ty n)]

theorem FindOrCreateValue_idem (e : ResourceEntry) (c : ConfigDescription) (prod : String) :
    (e.FindOrCreateValue c prod).1.FindOrCreateValue c prod = e.FindOrCreateValue c prod := by
  rw [FindOrCreateValue_found (FindValue_FindOrCreateValue_self e c prod)]

theorem CreatePackage_char_none (t : ResourceTable) (n : String) :
    t.CreatePackage n none =
      ((t.FindOrCreatePackage n).1, some (t.FindOrCreatePackage n).2) := by
  simp only [ResourceTable.CreatePackage]

theorem CreatePackage_char_some (t : ResourceTable) (n : String) (i : Nat) :
    t.CreatePackage n (some i) =
      (match (t.FindOrCreatePackage n).2.id with
      | none =>
        (replacePackageBy n (fun q => { q with id := some i }) (t.FindOrCreatePackage n).1,
          some { (t.FindOrCreatePackage n).2 with id := some i })
      | some j =>
        if i = j then ((t.FindOrCreatePackage n).1, some (t.FindOrCreatePackage n).2)
        else ((t.FindOrCreatePackage n).1, none)) := by
  simp only [ResourceTable.CreatePackage]
  cases (t.FindOrCreatePackage n).2.id <;> rfl

theorem CreatePackage_idem (t : ResourceTable) (n : String) (pid : Option Nat) :
    (t.CreatePackage n pid).1.CreatePackage n pid = t.CreatePackage n pid := by
  cases pid with
  | none =>
    simp only [CreatePackage_char_none,
      FindOrCreatePackage_found (FindPackage_FindOrCreatePackage_self t n)]
  | some i =>
    cases hid : (t.FindOrCreatePackage n).2.id with
    | some j =>
      by_cases hij : i = j
      · simp [CreatePackage_char_some, hid,
          FindOrCreatePackage_found (FindPackage_FindOrCreatePackage_self t n), if_pos hij]
      · simp [CreatePackage_char_some, hid,
          FindOrCreatePackage_found (FindPackage_FindOrCreatePackage_self t n), if_neg hij,
          hij]
    | none =>
      have hf : ∀ q : ResourceTablePackage, pkgNameMatches n q = true →
          (({ q with id := some i } : ResourceTablePackage)).name = q.name := fun q _ => rfl
      have hrepl := FindPackage_replacePackageBy_eq n (fun q => { q with id := some i })
        (t.FindOrCreatePackage n).1 (t.FindOrCreatePackage n).2 hf
        (FindPackage_FindOrCreatePackage_self t n)
      simp [CreatePackage_char_some, hid, FindOrCreatePackage_found hrepl]

/-- C5: the find-or-create operations and `CreatePackage` are idempotent:
a second call with the same key returns the same pair (the same container
and the same child, i.e. references to the same underlying object), and a
child created by the first call starts with Symbol state Undefined, no
numeric id, and (for slots) no value. -/
theorem C5_idempotent_creation (t : ResourceTable) (p : ResourceTablePackage)
    (ty : ResourceTableType) (e : ResourceEntry) (n m : String) (τ : ResourceType)
    (c : ConfigDescription) (prod : String) (pid : Option Nat) :
    ((t.FindOrCreatePackage n).1.FindOrCreatePackage n = t.FindOrCreatePackage n) ∧
    (t.FindPackage n = none →
      (t.FindOrCreatePackage n).2 = freshPackage n ∧ (freshPackage n).id = none) ∧
    ((p.FindOrCreateType τ).1.FindOrCreateType τ = p.FindOrCreateType τ) ∧
    (p.FindType τ = none →
      (p.FindOrCreateType τ).2 = freshType τ ∧ (freshType τ).id = none ∧
      (freshType τ).symbol_status.state = SymbolState.kUndefined) ∧
    ((ty.FindOrCreateEntry m).1.FindOrCreateEntry m = ty.FindOrCreateEntry m) ∧
    (ty.FindEntry m = none →
      (ty.FindOrCreateEntry m).2 = freshEntry m ∧ (freshEntry m).id = none ∧
      (freshEntry m).symbol_status.state = SymbolState.kUndefined) ∧
    ((e.FindOrCreateValue c prod).1.FindOrCreateValue c prod = e.FindOrCreateValue c prod) ∧
    (e.FindValue c prod = none → (e.FindOrCreateValue c prod).2.value = none) ∧
    ((t.CreatePackage n pid).1.CreatePackage n pid = t.CreatePackage n pid) := by
  refine ⟨FindOrCreatePackage_idem t n, ?_, FindOrCreateType_idem p τ, ?_,
    FindOrCreateEntry_idem ty m, ?_, FindOrCreateValue_idem e c prod, ?_,
    CreatePackage_idem t n pid⟩
  · intro h
    rw [FindOrCreatePackage_snd, h]
    exact ⟨rfl, rfl⟩
  · intro h
    rw [FindOrCreateType_snd, h]
    exact ⟨rfl, rfl, rfl⟩
  · intro h
    rw [FindOrCreateEntry_snd, h]
    exact ⟨rfl, rfl, rfl⟩
  · intro h
    rw [FindOrCreateValue_snd, h]
    rfl

/-- Closed instance of `C5_idempotent_creation` on an empty type bucket. -/
theorem C5_idempotent_creation_witness :
    ((freshType 3).FindOrCreateEntry "e").1.FindOrCreateEntry "e" =
      (freshType 3).FindOrCreateEntry "e" ∧
    ((freshType 3).FindOrCreateEntry "e").2 = freshEntry "e" ∧
    (freshEntry "e").id = none ∧
    (freshEntry "e").symbol_status.state = SymbolState.kUndefined :=
  ⟨(C5_idempotent_creation ({} : ResourceTable) (freshPackage "q") (freshType 3)
      (freshEntry "x") "n" "e" 3 "c" "" none).2.2.2.2.1,
   ((C5_idempotent_creation ({} : ResourceTable) (freshPackage "q") (freshType 3)
      (freshEntry "x") "n" "e" 3 "c" "" none).2.2.2.2.2.1 (by decide)).1,
   ((C5_idempotent_creation ({} : ResourceTable) (freshPackage "q") (freshType 3)
      (freshEntry "x") "n" "e" 3 "c" "" none).2.2.2.2.2.1 (by decide)).2.1,
   ((C5_idempotent_creation ({} : ResourceTable) (freshPackage "q") (freshType 3)
      (freshEntry "x") "n" "e" 3 "c" "" none).2.2.2.2.2.1 (by decide)).2.2⟩

/-! ### Lookup of never-added names -/
theorem entryAt_AddResourceImpl_frame (t : ResourceTable) (name : ResourceName)
    (res_id : Option ResourceId) (config : ConfigDescription) (product : String)
    (v : Value) (validChars : List Char) (resolver : Value → Value → CollisionResult)
    (n' : ResourceName) (hnn : ¬(n' = name)) :
    (t.AddResourceImpl name res_id config product v validChars resolver).table.entryAt n' =
      t.entryAt n' := by
  rcases AddResourceImpl_table_cases t name res_id config product v validChars resolver
    with h | h | h | h <;> rw [h]
  · rw [entryAt_prepare, if_neg hnn]
  · rw [entryAt_commitEntry _ name n' res_id _
      (by rw [FindOrCreateValue_fst_name, prepEntry_name]), if_neg hnn,
      entryAt_prepare, if_neg hnn]
  · rw [entryAt_commitEntry _ name n' res_id _
      (by rw [setValueAt_name, FindOrCreateValue_fst_name, prepEntry_name]), if_neg hnn,
      entryAt_prepare, if_neg hnn]

theorem FindResource_eq_none_iff (t : ResourceTable) (n : ResourceName) :
    t.FindResource n = none ↔ t.entryAt n = none := by
  unfold ResourceTable.entryAt
  cases t.FindResource n <;> simp

theorem entryAt_applyAddOps_frame (resolver : Value → Value → CollisionResult)
    (n : ResourceName) (ops : List AddOp) (h : ∀ op ∈ ops, ¬(op.name = n)) :
    ∀ t : ResourceTable, t.entryAt n = none →
      (applyAddOps resolver t ops).entryAt n = none := by
  induction ops with
  | nil => exact fun t ht => ht
  | cons op ops ih =>
    intro t ht
    show (applyAddOps resolver _ ops).entryAt n = none
    refine ih (fun o ho => h o (List.mem_cons_of_mem op ho)) _ ?_
    have hne : ¬(n = op.name) := fun hc => h op (List.mem_cons_self op ops) hc.symm
    rw [entryAt_AddResourceImpl_frame _ op.name op.res_id op.config op.product op.value
      op.validChars resolver n hne]
    exact ht

/-- C7: `FindResource` on a name never added returns "not found": replaying
any sequence of add operations, none of which targets the name, against the
empty table leaves the lookup empty — no placeholder is ever constructed.
`FindResource` is embedded as a pure function of the table, so the table is
unchanged by the lookup itself.  Moreover the lookup is exact and
creation-free: whenever the package step of the chain is missing, the
result is "not found". -/
theorem C7_find_never_added (n : ResourceName) (ops : List AddOp)
    (resolver : Value → Value → CollisionResult)
    (h : ∀ op ∈ ops, ¬(op.name = n)) :
    (applyAddOps resolver ({} : ResourceTable) ops).FindResource n = none ∧
    (∀ t : ResourceTable, t.FindPackage n.package = none → t.FindResource n = none) := by
  constructor
  · rw [FindResource_eq_none_iff]
    exact entryAt_applyAddOps_frame resolver n ops h ({} : ResourceTable) rfl
  · intro t ht
    unfold ResourceTable.FindResource
    rw [ht]
    rfl

/-- Closed instance of `C7_find_never_added`: after adding `p:3/a`, looking
up `p:3/b` finds nothing. -/
theorem C7_find_never_added_witness :
    (applyAddOps ResolveValueCollision ({} : ResourceTable)
      [⟨⟨"p", 3, "a"⟩, none, "cfg", "", ⟨0, false, 0, "x"⟩, resourceValidChars⟩]).FindResource
      ⟨"p", 3, "b"⟩ = none :=
  (C7_find_never_added ⟨"p", 3, "b"⟩
    [⟨⟨"p", 3, "a"⟩, none, "cfg", "", ⟨0, false, 0, "x"⟩, resourceValidChars⟩]
    ResolveValueCollision (by decide)).1

/-! ### The ordering invariant (spec §3, §4.3)

Packages stay sorted by name and each type bucket's entries stay sorted by
entry name: creation inserts at the sorted position among strictly distinct
keys, and the commit step maps key-preserving functions over the lists. -/
theorem pairwise_lt_map {α : Type} (key : α → String) (g : α → α) (l : List α)
    (hg : ∀ y ∈ l, key (g y) = key y)
    (hl : l.Pairwise fun a b => key a < key b) :
    (l.map g).Pairwise fun a b => key a < key b := by
  rw [List.pairwise_map]
  refine List.Pairwise.imp_of_mem ?_ hl
  intro a b ha hb hab
  rw [hg a ha, hg b hb]
  exact hab

theorem SortedByName_FindOrCreatePackage (t : ResourceTable) (n : String)
    (h : t.SortedByName) : (t.FindOrCreatePackage n).1.SortedByName := by
  unfold ResourceTable.SortedByName at h ⊢
  rcases h with ⟨hp, he⟩
  unfold ResourceTable.FindOrCreatePackage
  cases hfp : t.FindPackage n with
  | some p => exact ⟨hp, he⟩
  | none =>
    refine ⟨?_, ?_⟩
    · show (insertSortedBy ResourceTablePackage.name (freshPackage n) t.packages).Pairwise
        fun a b => a.name < b.name
      refine pairwise_insertSortedBy _ _ _ hp ?_
      intro y hy
      show y.name ≠ (freshPackage n).name
      have hne : ¬ pkgNameMatches n y = true := List.find?_eq_none.mp hfp y hy
      simpa [pkgNameMatches, freshPackage] using hne
    · intro p' hp' ty' hty'
      have hp2 : p' ∈ insertSortedBy ResourceTablePackage.name (freshPackage n) t.packages :=
        hp'
      rcases (mem_insertSortedBy _ _ _ _).mp hp2 with rfl | hp3
      · exact absurd hty' (List.not_mem_nil ty')
      · exact he p' hp3 ty' hty'

/-- Every type bucket of the package resolved by `FindOrCreatePackage` comes
from the original table (or the bucket list is empty), so its entries are
sorted whenever the table's are. -/
theorem sorted_entries_of_basePkg (t : ResourceTable) (np : String)
    (he : ∀ p ∈ t.packages, ∀ ty ∈ p.types,
      ty.entries.Pairwise fun a b => a.name < b.name) :
    ∀ ty ∈ (t.FindOrCreatePackage np).2.types,
      ty.entries.Pairwise fun a b => a.name < b.name := by
  rw [FindOrCreatePackage_snd]
  cases hfp : t.FindPackage np with
  | none =>
    intro ty hty
    exact absurd hty (List.not_mem_nil ty)
  | some p =>
    intro ty hty
    exact he p (List.mem_of_find?_eq_some hfp) ty hty

theorem sorted_entries_FindOrCreateEntry (ty : ResourceTableType) (m : String)
    (h : ty.entries.Pairwise fun a b => a.name < b.name) :
    (ty.FindOrCreateEntry m).1.entries.Pairwise fun a b => a.name < b.name := by
  unfold ResourceTableType.FindOrCreateEntry
  cases hfe : ty.FindEntry m with
  | some e => exact h
  | none =>
    show (insertSortedBy ResourceEntry.name (freshEntry m) ty.entries).Pairwise
      fun a b => a.name < b.name
    refine pairwise_insertSortedBy _ _ _ h ?_
    intro y hy
    show y.name ≠ (freshEntry m).name
    have hne : ¬ entryNameMatches m y = true := List.find?_eq_none.mp hfe y hy
    simpa [entryNameMatches, freshEntry] using hne

theorem sorted_entries_prepTy (t : ResourceTable) (name : ResourceName)
    (he : ∀ p ∈ t.packages, ∀ ty ∈ p.types,
      ty.entries.Pairwise fun a b => a.name < b.name) :
    (prepTy t name).entries.Pairwise fun a b => a.name < b.name := by
  unfold prepTy
  refine sorted_entries_FindOrCreateEntry _ _ ?_
  rw [FindOrCreateType_snd]
  cases hft : (t.FindOrCreatePackage name.package).2.FindType name.type with
  | none => exact List.Pairwise.nil
  | some ty0 =>
    exact sorted_entries_of_basePkg t name.package he ty0 (List.mem_of_find?_eq_some hft)

theorem SortedByName_prepare (t : ResourceTable) (name : ResourceName)
    (h : t.SortedByName) : (t.prepare name).1.SortedByName := by
  have he0 : ∀ p ∈ t.packages, ∀ ty ∈ p.types,
      ty.entries.Pairwise fun a b => a.name < b.name := h.2
  have hbase := SortedByName_FindOrCreatePackage t name.package h
  unfold ResourceTable.SortedByName at hbase ⊢
  rcases hbase with ⟨hbp, hbe⟩
  refine ⟨?_, ?_⟩
  · show (List.map (fun q => if pkgNameMatches name.package q then prepPkg t name else q)
      (t.FindOrCreatePackage name.package).1.packages).Pairwise
      fun a b => a.name < b.name
    refine pairwise_lt_map ResourceTablePackage.name _ _ ?_ hbp
    intro y hy
    show (if pkgNameMatches name.package y then prepPkg t name else y).name = y.name
    by_cases hm : pkgNameMatches name.package y = true
    · rw [if_pos hm, prepPkg_name]
      have hyn : y.name = name.package := by simpa [pkgNameMatches] using hm
      rw [hyn]
    · rw [if_neg hm]
  · intro p' hp' ty' hty'
    have hp2 : p' ∈ List.map
        (fun q => if pkgNameMatches name.package q then prepPkg t name else q)
        (t.FindOrCreatePackage name.package).1.packages := hp'
    rcases List.mem_map.mp hp2 with ⟨q, hq, rfl⟩
    by_cases hm : pkgNameMatches name.package q = true
    · rw [if_pos hm] at hty'
      have hty2 : ty' ∈ List.map
          (fun q2 => if typeTagMatches name.type q2 then prepTy t name else q2)
          ((t.FindOrCreatePackage name.package).2.FindOrCreateType name.type).1.types :=
        hty'
      rcases List.mem_map.mp hty2 with ⟨ty0, hty0, rfl⟩
      by_cases hmt : typeTagMatches name.type ty0 = true
      · rw [if_pos hmt]
        exact sorted_entries_prepTy t name he0
      · rw [if_neg hmt]
        have hty3 : ty0 = freshType name.type ∨
            ty0 ∈ (t.FindOrCreatePackage name.package).2.types := by
          revert hty0
          unfold ResourceTablePackage.FindOrCreateType
          cases hft : (t.FindOrCreatePackage name.package).2.FindType name.type with
          | some ty1 =>
            intro h0
            exact Or.inr h0
          | none =>
            intro h0
            have h1 : ty0 ∈ insertSortedBy ResourceTableType.type (freshType name.type)
                (t.FindOrCreatePackage name.package).2.types := h0
            exact (mem_insertSortedBy _ _ _ _).mp h1
        rcases hty3 with rfl | hty3
        · exact List.Pairwise.nil
        · exact sorted_entries_of_basePkg t name.package he0 ty0 hty3
    · rw [if_neg hm] at hty'
      exact hbe q hq ty' hty'

theorem commitPkg_name (name : ResourceName) (res_id : Option ResourceId)
    (e1 : ResourceEntry) (p : ResourceTablePackage) :
    (commitPkg name res_id e1 p).name = p.name := rfl

theorem SortedByName_commitEntry (t : ResourceTable) (name : ResourceName)
    (res_id : Option ResourceId) (e1 : ResourceEntry) (he1 : e1.name = name.entry)
    (h : t.SortedByName) : (t.commitEntry name res_id e1).SortedByName := by
  unfold ResourceTable.SortedByName at h ⊢
  rcases h with ⟨hp, he⟩
  refine ⟨?_, ?_⟩
  · show (List.map (fun q => if pkgNameMatches name.package q then commitPkg name res_id e1 q
      else q) t.packages).Pairwise fun a b => a.name < b.name
    refine pairwise_lt_map ResourceTablePackage.name _ _ ?_ hp
    intro y hy
    show (if pkgNameMatches name.package y then commitPkg name res_id e1 y else y).name =
      y.name
    by_cases hm : pkgNameMatches name.package y = true
    · rw [if_pos hm, commitPkg_name]
    · rw [if_neg hm]
  · intro p' hp' ty' hty'
    have hp2 : p' ∈ List.map
        (fun q => if pkgNameMatches name.package q then commitPkg name res_id e1 q else q)
        t.packages := hp'
    rcases List.mem_map.mp hp2 with ⟨q, hq, rfl⟩
    by_cases hm : pkgNameMatches name.package q = true
    · rw [if_pos hm] at hty'
      have hty2 : ty' ∈ List.map
          (fun q2 => if typeTagMatches name.type q2 then commitTy name res_id e1 q2 else q2)
          q.types := hty'
      rcases List.mem_map.mp hty2 with ⟨ty0, hty0, rfl⟩
      by_cases hmt : typeTagMatches name.type ty0 = true
      · rw [if_pos hmt]
        show (List.map (fun q2 => if entryNameMatches name.entry q2 then commitEntryE res_id e1
          else q2) ty0.entries).Pairwise fun a b => a.name < b.name
        refine pairwise_lt_map ResourceEntry.name _ _ ?_ (he q hq ty0 hty0)
        intro y hy
        show (if entryNameMatches name.entry y then commitEntryE res_id e1 else y).name =
          y.name
        by_cases hme : entryNameMatches name.entry y = true
        · rw [if_pos hme, commitEntryE_name, he1]
          have hyn : y.name = name.entry := by simpa [entryNameMatches] using hme
          rw [hyn]
        · rw [if_neg hme]
      · rw [if_neg hmt]
        exact he q hq ty0 hty0
    · rw [if_neg hm] at hty'
      exact he q hq ty' hty'

theorem SortedByName_setPkgId (t : ResourceTable) (n : String) (i : Nat)
    (h : t.SortedByName) :
    (replacePackageBy n (fun q => { q with id := some i }) t).SortedByName := by
  unfold ResourceTable.SortedByName at h ⊢
  rcases h with ⟨hp, he⟩
  refine ⟨?_, ?_⟩
  · show (List.map (fun q => if pkgNameMatches n q then { q with id := some i } else q)
      t.packages).Pairwise fun a b => a.name < b.name
    refine pairwise_lt_map ResourceTablePackage.name _ _ ?_ hp
    intro y hy
    show (if pkgNameMatches n y then ({ y with id := some i } : ResourceTablePackage)
      else y).name = y.name
    by_cases hm : pkgNameMatches n y = true
    · rw [if_pos hm]
    · rw [if_neg hm]
  · intro p' hp' ty' hty'
    have hp2 : p' ∈ List.map
        (fun q => if pkgNameMatches n q then { q with id := some i } else q)
        t.packages := hp'
    rcases List.mem_map.mp hp2 with ⟨q, hq, rfl⟩
    by_cases hm : pkgNameMatches n q = true
    · rw [if_pos hm] at hty'
      exact he q hq ty' hty'
    · rw [if_neg hm] at hty'
      exact he q hq ty' hty'

theorem SortedByName_CreatePackage (t : ResourceTable) (n : String) (pid : Option Nat)
    (h : t.SortedByName) : (t.CreatePackage n pid).1.SortedByName := by
  cases pid with
  | none =>
    rw [CreatePackage_char_none]
    exact SortedByName_FindOrCreatePackage t n h
  | some i =>
    rw [CreatePackage_char_some]
    cases hid : (t.FindOrCreatePackage n).2.id with
    | none =>
      exact SortedByName_setPkgId _ n i (SortedByName_FindOrCreatePackage t n h)
    | some j =>
      show (if i = j then ((t.FindOrCreatePackage n).1, some (t.FindOrCreatePackage n).2)
        else ((t.FindOrCreatePackage n).1, none)).1.SortedByName
      by_cases hij : i = j
      · rw [if_pos hij]
        exact SortedByName_FindOrCreatePackage t n h
      · rw [if_neg hij]
        exact SortedByName_FindOrCreatePackage t n h

theorem SetSymbolStateImpl_table_cases (t : ResourceTable) (name : ResourceName)
    (res_id : Option ResourceId) (symbol : Symbol) (validChars : List Char) :
    (t.SetSymbolStateImpl name res_id symbol validChars).table = t ∨
    (t.SetSymbolStateImpl name res_id symbol validChars).table = (t.prepare name).1 ∨
    (t.SetSymbolStateImpl name res_id symbol validChars).table =
      (t.prepare name).1.commitEntry name res_id
        { prepEntry t name with symbol_status := symbol } := by
  by_cases hv : validResourceEntryName validChars name.entry = true
  · simp only [ResourceTable.SetSymbolStateImpl, if_pos hv]
    by_cases h1 : idCheck (t.prepare name).2.1.id (res_id.map ResourceId.package_id) = true
    · rw [if_pos h1]
      by_cases h2 : idCheck (t.prepare name).2.2.1.id (res_id.map ResourceId.type_id) = true
      · rw [if_pos h2]
        by_cases h3 : idCheck (t.prepare name).2.2.2.id (res_id.map ResourceId.entry_id) = true
        · rw [if_pos h3]
          right; right
          rfl
        · rw [if_neg h3]
          right; left
          rfl
      · rw [if_neg h2]
        right; left
        rfl
    · rw [if_neg h1]
      right; left
      rfl
  · simp only [ResourceTable.SetSymbolStateImpl, if_neg hv]
    left
    trivial

/-- C8: every operation that can create a package — `AddResourceImpl` (hence
both `AddResource` overloads), `SetSymbolStateImpl` (hence `SetSymbolState`)
and `CreatePackage` — keeps the table's packages sorted by package name and
every type bucket's entries sorted by entry name; the empty string is a
valid package name (`FindOrCreatePackage ""` yields a package named `""`)
and a distinct one (creating any other-named package leaves the lookup of
the `""` package untouched). -/
theorem C8_sorted_invariant (t : ResourceTable) (name : ResourceName)
    (res_id : Option ResourceId) (config : ConfigDescription) (product : String)
    (v : Value) (validChars : List Char) (resolver : Value → Value → CollisionResult)
    (symbol : Symbol) (n : String) (pid : Option Nat)
    (h : t.SortedByName) :
    (t.AddResourceImpl name res_id config product v validChars resolver).table.SortedByName ∧
    (t.SetSymbolStateImpl name res_id symbol validChars).table.SortedByName ∧
    (t.CreatePackage n pid).1.SortedByName ∧
    (t.FindOrCreatePackage "").2.name = "" ∧
    (∀ m, m ≠ "" → (t.FindOrCreatePackage m).1.FindPackage "" = t.FindPackage "") := by
  refine ⟨?_, ?_, SortedByName_CreatePackage t n pid h, FindOrCreatePackage_snd_name t "",
    fun m hm => FindPackage_FindOrCreatePackage_frame t (Ne.symm hm)⟩
  · rcases AddResourceImpl_table_cases t name res_id config product v validChars resolver
      with h4 | h4 | h4 | h4 <;> rw [h4]
    · exact h
    · exact SortedByName_prepare t name h
    · refine SortedByName_commitEntry _ name res_id _ ?_ (SortedByName_prepare t name h)
      rw [FindOrCreateValue_fst_name, prepEntry_name]
    · refine SortedByName_commitEntry _ name res_id _ ?_ (SortedByName_prepare t name h)
      rw [setValueAt_name, FindOrCreateValue_fst_name, prepEntry_name]
  · rcases SetSymbolStateImpl_table_cases t name res_id symbol validChars
      with h4 | h4 | h4 <;> rw [h4]
    · exact h
    · exact SortedByName_prepare t name h
    · refine SortedByName_commitEntry _ name res_id _ ?_ (SortedByName_prepare t name h)
      show (prepEntry t name).name = name.entry
      exact prepEntry_name t name

/-- Closed instance of `C8_sorted_invariant`: adding `p:1/a` to the empty
table leaves the packages sorted and the entries of every bucket sorted. -/
theorem C8_sorted_invariant_witness :
    (({} : ResourceTable).AddResourceImpl ⟨"p", 1, "a"⟩ none "cfg" "" ⟨0, false, 0, "x"⟩
      resourceValidChars ResolveValueCollision).table.SortedByName :=
  (C8_sorted_invariant {} ⟨"p", 1, "a"⟩ none "cfg" "" ⟨0, false, 0, "x"⟩
    resourceValidChars ResolveValueCollision {} "q" none
    ⟨List.Pairwise.nil, fun p hp => absurd hp (List.not_mem_nil p)⟩).1

end Aapt
